import Mathlib

/-!
# StudyDz: the catalog and document repository of `server.go`

A shallow embedding of the request handlers of `server.go` and of the SQL
statements they send to the storage engine.

* A table is the list of its rows together with the counter the engine keeps
  for an `AUTOINCREMENT` key (`sqlite_sequence`).
* A statement is a pure function on the database; a handler is a function from
  the state and the request to the new state and the response.
* Request parameters that carry identifiers (`c.Param("id")`,
  `c.Query("level_id")`, the `subject_id` form field) are taken as the integer
  the engine compares or stores for them.
* The tables are declared without `PRAGMA foreign_keys`, and the connection
  string of `initDB` does not switch it on, so a `FOREIGN KEY` clause
  constrains nothing: no statement below looks at a parent table.
* The model covers the executions in which the engine runs every statement to
  completion (no I/O failure, keys and counters inside the 64-bit range): the
  `if err != nil` branches that follow `db.Exec` and `db.Query` are never
  taken, and `rows.Scan` reads every row.  The file system, whose failures the
  handlers do react to, answers through explicit environment arguments.
-/

namespace StudyDz

/-! ## Rows and Go structs -/

/-- A point in time (`time.Time`, `DATETIME`), in seconds. -/
abbrev Time := Int

/-- The Go struct `Level`; also a row of the table `levels`. -/
structure Level where
  ID : Int
  Name : String
  NameAr : String
  Color : String
  CreatedAt : Time
deriving DecidableEq, Repr

/-- The Go struct `Year`: a row of `years` with the joined `level_name`. -/
structure Year where
  ID : Int
  LevelID : Int
  Name : String
  NameAr : String
  CreatedAt : Time
  LevelName : String
deriving DecidableEq, Repr

/-- The Go struct `Subject`: a row of `subjects` with the joined `year_name`. -/
structure Subject where
  ID : Int
  YearID : Int
  Name : String
  NameAr : String
  Icon : String
  CreatedAt : Time
  YearName : String
deriving DecidableEq, Repr

/-- The Go struct `Category`; also a row of the table `categories`. -/
structure Category where
  ID : Int
  Name : String
  NameAr : String
  CreatedAt : Time
deriving DecidableEq, Repr

/-- The Go struct `Document`: a row of `documents` with the two joined names. -/
structure Document where
  ID : Int
  SubjectID : Int
  CategoryID : Int
  Title : String
  FileName : String
  FilePath : String
  FileSize : Int
  Downloads : Int
  CreatedAt : Time
  SubjectName : String
  CategoryName : String
deriving DecidableEq, Repr

/-- A row of the table `years` (`CREATE TABLE years`). -/
structure YearRow where
  id : Int
  level_id : Int
  name : String
  name_ar : String
  created_at : Time
deriving DecidableEq, Repr

/-- A row of the table `subjects` (`CREATE TABLE subjects`). -/
structure SubjectRow where
  id : Int
  year_id : Int
  name : String
  name_ar : String
  icon : String
  created_at : Time
deriving DecidableEq, Repr

/-- A row of the table `documents` (`CREATE TABLE documents`). -/
structure DocumentRow where
  id : Int
  subject_id : Int
  category_id : Int
  title : String
  file_name : String
  file_path : String
  file_size : Int
  downloads : Int
  created_at : Time
deriving DecidableEq, Repr

/-! ## Tables -/

/-- The `INTEGER PRIMARY KEY` column of a row type. -/
class HasRowid (α : Type) where
  rowid : α → Int

export HasRowid (rowid)

instance : HasRowid Level := ⟨Level.ID⟩
instance : HasRowid Category := ⟨Category.ID⟩
instance : HasRowid YearRow := ⟨YearRow.id⟩
instance : HasRowid SubjectRow := ⟨SubjectRow.id⟩
instance : HasRowid DocumentRow := ⟨DocumentRow.id⟩

/-- A stored table: its rows, and the largest key the engine has ever handed
out for it (the table's entry in `sqlite_sequence`, 0 before the first
insert). -/
structure Table (α : Type) where
  rows : List α
  seq : Int
deriving DecidableEq, Repr

variable {α : Type} [HasRowid α]

/-- The largest key among the rows, if there is a row. -/
def lastRowid : List α → Option Int
  | [] => none
  | r :: rs =>
    match lastRowid rs with
    | none => some (rowid r)
    | some m => some (max (rowid r) m)

/-- The key an `AUTOINCREMENT` insert assigns: one more than the largest key
in the table (1 for an empty table), and never a key at or below the
sequence counter. -/
def Table.newRowid (t : Table α) : Int :=
  let v : Int :=
    match lastRowid t.rows with
    | none => 1
    | some m => m + 1
  if v < t.seq + 1 then t.seq + 1 else v

/-- The statement `INSERT INTO t (...) VALUES (...)`: the row built for the
new key is added, the sequence counter moves to that key, and the key is
reported (`LastInsertId`). -/
def Table.insert (t : Table α) (mk : Int → α) : Int × Table α :=
  let v := t.newRowid
  (v, { rows := t.rows ++ [mk v], seq := v })

/-- The statement `UPDATE t SET ... WHERE id = ?`. -/
def Table.update (t : Table α) (id : Int) (set : α → α) : Table α :=
  { t with rows := t.rows.map (fun r => if rowid r = id then set r else r) }

/-- The statement `DELETE FROM t WHERE id = ?`. -/
def Table.delete (t : Table α) (id : Int) : Table α :=
  { t with rows := t.rows.filter (fun r => decide (rowid r ≠ id)) }

/-- The query `SELECT ... FROM t WHERE id = ?` read with `QueryRow`: the first
matching row, `none` standing for `sql.ErrNoRows`. -/
def Table.queryRow (t : Table α) (id : Int) : Option α :=
  t.rows.find? (fun r => decide (rowid r = id))

/-- The aggregate `COUNT(*)`. -/
def Table.count (t : Table α) : Int := t.rows.length

/-- The aggregate `SUM(x)`: `NULL` (here `none`) over no rows. -/
def sqlSum : List Int → Option Int
  | [] => none
  | x :: xs => some (x + (sqlSum xs).getD 0)

/-- The function `COALESCE(x, d)`. -/
def coalesce (x : Option Int) (d : Int) : Int := x.getD d

/-- The clause `a JOIN b ON cond`. -/
def innerJoin {β γ : Type} (a : List β) (b : List γ) (cond : β → γ → Bool) : List (β × γ) :=
  a.flatMap (fun x => (b.filter (fun y => cond x y)).map (fun y => (x, y)))

/-- The clause `ORDER BY`, for the order `le` on result rows. -/
def orderBy {β : Type} (le : β → β → Prop) [DecidableRel le] (rows : List β) : List β :=
  rows.insertionSort le

/-- The five tables of `StudyDz.db`. -/
structure DB where
  levels : Table Level
  years : Table YearRow
  subjects : Table SubjectRow
  categories : Table Category
  documents : Table DocumentRow
deriving DecidableEq, Repr

/-- The database right after the `CREATE TABLE` statements of `initDB` on a
new file. -/
def DB.empty : DB :=
  { levels := ⟨[], 0⟩, years := ⟨[], 0⟩, subjects := ⟨[], 0⟩, categories := ⟨[], 0⟩,
    documents := ⟨[], 0⟩ }

/-! ## Responses -/

/-- The struct `stats` of `GetStats`. -/
structure Stats where
  TotalLevels : Int
  TotalYears : Int
  TotalSubjects : Int
  TotalDocuments : Int
  TotalDownloads : Int
deriving DecidableEq, Repr

/-- What a handler hands to `c.JSON`. -/
inductive Payload where
  | levels (rows : List Level)
  | years (rows : List Year)
  | subjects (rows : List Subject)
  | categories (rows : List Category)
  | documents (rows : List Document)
  | stats (s : Stats)
  | level (l : Level)
  | year (y : Year)
  | subject (s : Subject)
  | category (c : Category)
  | error (msg : String)
  | message (msg : String)
  | uploaded (msg : String) (filename : String)
deriving DecidableEq, Repr

/-- The answer of a handler: `c.JSON(status, payload)` or
`c.FileAttachment(filepath, filename)`. -/
inductive Response where
  | json (status : Nat) (payload : Payload)
  | fileAttachment (filepath : String) (filename : String)
deriving DecidableEq, Repr

/-! ## Public handlers -/

/-- The handler `GetLevels`:
`SELECT id, name, name_ar, color, created_at FROM levels ORDER BY id`. -/
def GetLevels (db : DB) : Response :=
  .json 200 (.levels (orderBy (fun a b : Level => a.ID ≤ b.ID) db.levels.rows))

/-- The result row of the two year listings, from a row of the join
`years JOIN levels`: the columns of the year and the level's `name_ar` as
`level_name`. -/
def scanYear (p : YearRow × Level) : Year :=
  { ID := p.1.id, LevelID := p.1.level_id, Name := p.1.name, NameAr := p.1.name_ar,
    CreatedAt := p.1.created_at, LevelName := p.2.NameAr }

/-- The result row of the two subject listings, from a row of the join
`subjects JOIN years`: the columns of the subject and the year's `name_ar` as
`year_name`. -/
def scanSubject (p : SubjectRow × YearRow) : Subject :=
  { ID := p.1.id, YearID := p.1.year_id, Name := p.1.name, NameAr := p.1.name_ar,
    Icon := p.1.icon, CreatedAt := p.1.created_at, YearName := p.2.name_ar }

/-- The handler `GetYears`: the years joined with their level, restricted to
`y.level_id = ?`, ordered by `y.id`; each result row carries the level's
`name_ar` as `level_name`. -/
def GetYears (db : DB) (levelID : Int) : Response :=
  let joined := innerJoin db.years.rows db.levels.rows (fun y l => decide (y.level_id = l.ID))
  let selected := joined.filter (fun p => decide (p.1.level_id = levelID))
  let ordered := orderBy (fun p q : YearRow × Level => p.1.id ≤ q.1.id) selected
  .json 200 (.years (ordered.map scanYear))

/-- The handler `GetSubjects`: the subjects joined with their year, restricted
to `s.year_id = ?`, ordered by `s.id`. -/
def GetSubjects (db : DB) (yearID : Int) : Response :=
  let joined := innerJoin db.subjects.rows db.years.rows (fun s y => decide (s.year_id = y.id))
  let selected := joined.filter (fun p => decide (p.1.year_id = yearID))
  let ordered := orderBy (fun p q : SubjectRow × YearRow => p.1.id ≤ q.1.id) selected
  .json 200 (.subjects (ordered.map scanSubject))

/-- The handler `GetCategories`:
`SELECT id, name, name_ar, created_at FROM categories ORDER BY id`. -/
def GetCategories (db : DB) : Response :=
  .json 200 (.categories (orderBy (fun a b : Category => a.ID ≤ b.ID) db.categories.rows))

/-- The result row of the two document listings, from a row of the join
`documents JOIN subjects JOIN categories`. -/
def scanDocument (p : (DocumentRow × SubjectRow) × Category) : Document :=
  { ID := p.1.1.id, SubjectID := p.1.1.subject_id, CategoryID := p.1.1.category_id,
    Title := p.1.1.title, FileName := p.1.1.file_name, FilePath := p.1.1.file_path,
    FileSize := p.1.1.file_size, Downloads := p.1.1.downloads,
    CreatedAt := p.1.1.created_at, SubjectName := p.1.2.name_ar,
    CategoryName := p.2.NameAr }

/-- The join of the two document listings. -/
def joinDocuments (db : DB) : List ((DocumentRow × SubjectRow) × Category) :=
  innerJoin
    (innerJoin db.documents.rows db.subjects.rows (fun d s => decide (d.subject_id = s.id)))
    db.categories.rows (fun p cat => decide (p.1.category_id = cat.ID))

/-- The handler `GetDocuments`: the joined documents with `d.subject_id = ?`,
`ORDER BY d.created_at DESC`. -/
def GetDocuments (db : DB) (subjectID : Int) : Response :=
  let selected := (joinDocuments db).filter (fun p => decide (p.1.1.subject_id = subjectID))
  let ordered := orderBy
    (fun p q : (DocumentRow × SubjectRow) × Category => q.1.1.created_at ≤ p.1.1.created_at)
    selected
  .json 200 (.documents (ordered.map scanDocument))

/-- The handler `GetStats`: four `COUNT(*)` and
`COALESCE(SUM(downloads), 0)`. -/
def GetStats (db : DB) : Response :=
  .json 200 (.stats
    { TotalLevels := db.levels.count
      TotalYears := db.years.count
      TotalSubjects := db.subjects.count
      TotalDocuments := db.documents.count
      TotalDownloads := coalesce (sqlSum (db.documents.rows.map (fun d => d.downloads))) 0 })

/-- The handler `DownloadDocument`: the row is looked up by `id`; without a
row the answer is 404 and nothing else happens; with a row, the statement
`UPDATE documents SET downloads = downloads + 1 WHERE id = ?` runs and the
file is sent under the row's `file_path` and `file_name`. -/
def DownloadDocument (db : DB) (docID : Int) : DB × Response :=
  match db.documents.queryRow docID with
  | none => (db, .json 404 (.error "Document not found"))
  | some doc =>
    ({ db with documents :=
        db.documents.update docID (fun d => { d with downloads := d.downloads + 1 }) },
     .fileAttachment doc.file_path doc.file_name)

/-! ## Administrative handlers

`body` is the outcome of `c.BindJSON`: the struct read from the request, or
the error text.  `now` is the engine's `CURRENT_TIMESTAMP` when the insert
runs. -/

/-- The handler `GetAllYears`: the join of `GetYears` without the
restriction, `ORDER BY y.level_id, y.id`. -/
def GetAllYears (db : DB) : Response :=
  let joined := innerJoin db.years.rows db.levels.rows (fun y l => decide (y.level_id = l.ID))
  let ordered := orderBy
    (fun p q : YearRow × Level =>
      p.1.level_id < q.1.level_id ∨ (p.1.level_id = q.1.level_id ∧ p.1.id ≤ q.1.id))
    joined
  .json 200 (.years (ordered.map scanYear))

/-- The handler `GetAllSubjects`: the join of `GetSubjects` without the
restriction, `ORDER BY s.year_id, s.id`. -/
def GetAllSubjects (db : DB) : Response :=
  let joined := innerJoin db.subjects.rows db.years.rows (fun s y => decide (s.year_id = y.id))
  let ordered := orderBy
    (fun p q : SubjectRow × YearRow =>
      p.1.year_id < q.1.year_id ∨ (p.1.year_id = q.1.year_id ∧ p.1.id ≤ q.1.id))
    joined
  .json 200 (.subjects (ordered.map scanSubject))

/-- The handler `GetAllDocuments`: the joined documents,
`ORDER BY d.created_at DESC`. -/
def GetAllDocuments (db : DB) : Response :=
  let ordered := orderBy
    (fun p q : (DocumentRow × SubjectRow) × Category => q.1.1.created_at ≤ p.1.1.created_at)
    (joinDocuments db)
  .json 200 (.documents (ordered.map scanDocument))

/-- The statement `INSERT INTO levels (name, name_ar, color) VALUES (?, ?, ?)`. -/
def insertLevel (db : DB) (now : Time) (name nameAr color : String) : Int × DB :=
  let r := db.levels.insert
    (fun id => { ID := id, Name := name, NameAr := nameAr, Color := color, CreatedAt := now })
  (r.1, { db with levels := r.2 })

/-- The statement `INSERT INTO years (level_id, name, name_ar) VALUES (?, ?, ?)`. -/
def insertYear (db : DB) (now : Time) (levelID : Int) (name nameAr : String) : Int × DB :=
  let r := db.years.insert
    (fun id =>
      { id := id, level_id := levelID, name := name, name_ar := nameAr, created_at := now })
  (r.1, { db with years := r.2 })

/-- The statement
`INSERT INTO subjects (year_id, name, name_ar, icon) VALUES (?, ?, ?, ?)`. -/
def insertSubject (db : DB) (now : Time) (yearID : Int) (name nameAr icon : String) :
    Int × DB :=
  let r := db.subjects.insert
    (fun id =>
      { id := id, year_id := yearID, name := name, name_ar := nameAr, icon := icon,
        created_at := now })
  (r.1, { db with subjects := r.2 })

/-- The statement `INSERT INTO categories (name, name_ar) VALUES (?, ?)`. -/
def insertCategory (db : DB) (now : Time) (name nameAr : String) : Int × DB :=
  let r := db.categories.insert
    (fun id => { ID := id, Name := name, NameAr := nameAr, CreatedAt := now })
  (r.1, { db with categories := r.2 })

/-- The handler `CreateLevel`. -/
def CreateLevel (db : DB) (now : Time) (body : Except String Level) : DB × Response :=
  match body with
  | .error err => (db, .json 400 (.error err))
  | .ok level =>
    let r := insertLevel db now level.Name level.NameAr level.Color
    (r.2, .json 201 (.level { level with ID := r.1 }))

/-- The handler `UpdateLevel`:
`UPDATE levels SET name = ?, name_ar = ?, color = ? WHERE id = ?`. -/
def UpdateLevel (db : DB) (id : Int) (body : Except String Level) : DB × Response :=
  match body with
  | .error err => (db, .json 400 (.error err))
  | .ok level =>
    ({ db with levels := db.levels.update id (fun r =>
        { r with Name := level.Name, NameAr := level.NameAr, Color := level.Color }) },
     .json 200 (.message "Level updated successfully"))

/-- The handler `DeleteLevel`: `DELETE FROM levels WHERE id = ?`. -/
def DeleteLevel (db : DB) (id : Int) : DB × Response :=
  ({ db with levels := db.levels.delete id },
   .json 200 (.message "Level deleted successfully"))

/-- The handler `CreateYear`. -/
def CreateYear (db : DB) (now : Time) (body : Except String Year) : DB × Response :=
  match body with
  | .error err => (db, .json 400 (.error err))
  | .ok year =>
    let r := insertYear db now year.LevelID year.Name year.NameAr
    (r.2, .json 201 (.year { year with ID := r.1 }))

/-- The handler `UpdateYear`:
`UPDATE years SET level_id = ?, name = ?, name_ar = ? WHERE id = ?`. -/
def UpdateYear (db : DB) (id : Int) (body : Except String Year) : DB × Response :=
  match body with
  | .error err => (db, .json 400 (.error err))
  | .ok year =>
    ({ db with years := db.years.update id (fun r =>
        { r with level_id := year.LevelID, name := year.Name, name_ar := year.NameAr }) },
     .json 200 (.message "Year updated successfully"))

/-- The handler `DeleteYear`: `DELETE FROM years WHERE id = ?`. -/
def DeleteYear (db : DB) (id : Int) : DB × Response :=
  ({ db with years := db.years.delete id },
   .json 200 (.message "Year deleted successfully"))

/-- The handler `CreateSubject`. -/
def CreateSubject (db : DB) (now : Time) (body : Except String Subject) : DB × Response :=
  match body with
  | .error err => (db, .json 400 (.error err))
  | .ok subject =>
    let r := insertSubject db now subject.YearID subject.Name subject.NameAr subject.Icon
    (r.2, .json 201 (.subject { subject with ID := r.1 }))

/-- The handler `UpdateSubject`:
`UPDATE subjects SET year_id = ?, name = ?, name_ar = ?, icon = ? WHERE id = ?`. -/
def UpdateSubject (db : DB) (id : Int) (body : Except String Subject) : DB × Response :=
  match body with
  | .error err => (db, .json 400 (.error err))
  | .ok subject =>
    ({ db with subjects := db.subjects.update id (fun r =>
        { r with year_id := subject.YearID, name := subject.Name, name_ar := subject.NameAr,
                 icon := subject.Icon }) },
     .json 200 (.message "Subject updated successfully"))

/-- The handler `DeleteSubject`: `DELETE FROM subjects WHERE id = ?`. -/
def DeleteSubject (db : DB) (id : Int) : DB × Response :=
  ({ db with subjects := db.subjects.delete id },
   .json 200 (.message "Subject deleted successfully"))

/-- The handler `CreateCategory`. -/
def CreateCategory (db : DB) (now : Time) (body : Except String Category) : DB × Response :=
  match body with
  | .error err => (db, .json 400 (.error err))
  | .ok category =>
    let r := insertCategory db now category.Name category.NameAr
    (r.2, .json 201 (.category { category with ID := r.1 }))

/-- The handler `UpdateCategory`:
`UPDATE categories SET name = ?, name_ar = ? WHERE id = ?`. -/
def UpdateCategory (db : DB) (id : Int) (body : Except String Category) : DB × Response :=
  match body with
  | .error err => (db, .json 400 (.error err))
  | .ok category =>
    ({ db with categories := db.categories.update id (fun r =>
        { r with Name := category.Name, NameAr := category.NameAr }) },
     .json 200 (.message "Category updated successfully"))

/-- The handler `DeleteCategory`: `DELETE FROM categories WHERE id = ?`. -/
def DeleteCategory (db : DB) (id : Int) : DB × Response :=
  ({ db with categories := db.categories.delete id },
   .json 200 (.message "Category deleted successfully"))

/-! ## Files -/

/-- The part of the file system the handlers touch: whether the directory
`./uploads` exists, and the regular files by path. -/
structure FileSystem where
  uploadsDir : Bool
  files : List (String × List UInt8)
deriving DecidableEq, Repr

/-- The content of the file at a path, if there is one. -/
def FileSystem.read (fs : FileSystem) (path : String) : Option (List UInt8) :=
  (fs.files.find? (fun f => decide (f.1 = path))).map (fun f => f.2)

/-- The call `os.MkdirAll("./uploads", 0755)`, whose error the handler drops:
an existing directory stays, an absent one appears when the system allows. -/
def FileSystem.mkdirAll (fs : FileSystem) (allowed : Bool) : FileSystem :=
  { fs with uploadsDir := fs.uploadsDir || allowed }

/-- The call `c.SaveUploadedFile(file, dst)` for a destination under
`uploads`: with the directory present and the write allowed, the file at
`dst` holds the uploaded bytes afterwards; otherwise the call fails (`none`)
and nothing is written. -/
def FileSystem.saveUploadedFile (fs : FileSystem) (allowed : Bool) (dst : String)
    (content : List UInt8) : Option FileSystem :=
  if fs.uploadsDir && allowed then
    some { fs with files := (dst, content) :: fs.files.filter (fun f => decide (f.1 ≠ dst)) }
  else none

/-- The call `os.Remove(path)`, whose error the handler drops. -/
def FileSystem.remove (fs : FileSystem) (allowed : Bool) (path : String) : FileSystem :=
  if allowed then { fs with files := fs.files.filter (fun f => decide (f.1 ≠ path)) } else fs

/-- The whole state: the database and the files. -/
structure World where
  db : DB
  fs : FileSystem
deriving DecidableEq, Repr

/-- The Go library function `filepath.Base` (separator `/`): the last element
of the path after trailing separators are dropped; `.` for the empty path and
`/` for a path of separators only. -/
def filepathBase (path : String) : String :=
  if path = "" then "." else
    let stripped := (path.toList.reverse.dropWhile (fun c => c == '/')).reverse
    let last := (stripped.reverse.takeWhile (fun c => c != '/')).reverse
    if last = [] then "/" else String.mk last

/-- One element in the loop of `filepath.Clean`: empty elements and `.` are
dropped, `..` removes the element before it when there is one to remove. -/
def cleanStep (rooted : Bool) (out : List (List Char)) (elem : List Char) : List (List Char) :=
  if elem = [] ∨ elem = ['.'] then out
  else if elem = ['.', '.'] then
    match out.getLast? with
    | some l => if l = ['.', '.'] then out ++ [elem] else out.dropLast
    | none => if rooted then out else out ++ [elem]
  else out ++ [elem]

/-- The Go library function `filepath.Clean` (separator `/`). -/
def filepathClean (path : String) : String :=
  if path = "" then "." else
    let rooted := path.toList.head? == some '/'
    let elems := (path.toList.splitOn '/').foldl (cleanStep rooted) []
    let body := String.mk (['/'].intercalate elems)
    if rooted then "/" ++ body else if elems = [] then "." else body

/-- The Go library function `filepath.Join`, for two elements. -/
def filepathJoin (a b : String) : String :=
  if a = "" ∧ b = "" then ""
  else if a = "" then filepathClean b
  else if b = "" then filepathClean a
  else filepathClean (a ++ "/" ++ b)

/-- The struct `multipart.FileHeader` of an uploaded file: the name the client
gave and the bytes of the part. -/
structure FileHeader where
  Filename : String
  content : List UInt8
deriving DecidableEq, Repr

/-- The field `Size` of a `multipart.FileHeader`: the number of bytes. -/
def FileHeader.Size (file : FileHeader) : Int := file.content.length

/-- What the surroundings answer during one upload: whether `./uploads` may be
created, the value of `time.Now().Unix()`, whether the bytes may be written,
and the engine's `CURRENT_TIMESTAMP`. -/
structure UploadEnv where
  mkdirOk : Bool
  unixNow : Int
  saveOk : Bool
  now : Time
deriving DecidableEq, Repr

/-- The statement `INSERT INTO documents (subject_id, category_id, title,
file_name, file_path, file_size) VALUES (?, ?, ?, ?, ?, ?)`; the column
`downloads` takes its default, 0. -/
def insertDocument (db : DB) (now : Time) (subjectID categoryID : Int)
    (title fileName filePath : String) (fileSize : Int) : Int × DB :=
  let r := db.documents.insert
    (fun id =>
      { id := id, subject_id := subjectID, category_id := categoryID, title := title,
        file_name := fileName, file_path := filePath, file_size := fileSize,
        downloads := 0, created_at := now })
  (r.1, { db with documents := r.2 })

/-- The stored file name of an upload: `fmt.Sprintf("%d_%s", time.Now().Unix(),
filepath.Base(file.Filename))`. -/
def storedFileName (unixNow : Int) (original : String) : String :=
  toString unixNow ++ "_" ++ filepathBase original

/-- The handler `UploadDocument`; `file` is the outcome of
`c.FormFile("file")`. -/
def UploadDocument (w : World) (env : UploadEnv) (file : Option FileHeader)
    (subjectID categoryID : Int) (title : String) : World × Response :=
  match file with
  | none => (w, .json 400 (.error "No file uploaded"))
  | some file =>
    let fs := w.fs.mkdirAll env.mkdirOk
    let filename := storedFileName env.unixNow file.Filename
    let filePath := filepathJoin "uploads" filename
    match fs.saveUploadedFile env.saveOk filePath file.content with
    | none => ({ w with fs := fs }, .json 500 (.error "Failed to save file"))
    | some fs =>
      let r := insertDocument w.db env.now subjectID categoryID title file.Filename filePath
        file.Size
      ({ db := r.2, fs := fs }, .json 200 (.uploaded "File uploaded successfully" filename))

/-- The handler `DeleteDocument`: the path is read (it stays empty without a
row), the row is deleted, and a non-empty path is handed to `os.Remove`. -/
def DeleteDocument (w : World) (removeOk : Bool) (docID : Int) : World × Response :=
  let filePath :=
    match w.db.documents.queryRow docID with
    | none => ""
    | some d => d.file_path
  let db := { w.db with documents := w.db.documents.delete docID }
  let fs := if filePath ≠ "" then w.fs.remove removeOk filePath else w.fs
  ({ db := db, fs := fs }, .json 200 (.message "Document deleted successfully"))

/-! ## Seeding -/

/-- The slice `levels` of `insertDefaultData`: name, name_ar, color. -/
def insertDefaultData.levels : List (String × String × String) :=
  [ ("Primaire", "التعليم الابتدائي", "#ef4444"),
    ("Moyen", "التعليم المتوسط", "#10b981"),
    ("Lycée", "التعليم الثانوي", "#f59e0b"),
    ("Université", "الجامعة", "#06b6d4") ]

/-- The slice `primaireYears`. -/
def insertDefaultData.primaireYears : List String :=
  [ "السنة الأولى ابتدائي",
    "السنة الثانية ابتدائي",
    "السنة الثالثة ابتدائي",
    "السنة الرابعة ابتدائي",
    "السنة الخامسة ابتدائي" ]

/-- The slice `moyenYears`. -/
def insertDefaultData.moyenYears : List String :=
  [ "السنة الأولى متوسط",
    "السنة الثانية متوسط",
    "السنة الثالثة متوسط",
    "السنة الرابعة متوسط" ]

/-- The slice `lyceeYears`. -/
def insertDefaultData.lyceeYears : List String :=
  [ "السنة الأولى ثانوي",
    "السنة الثانية ثانوي",
    "السنة الثالثة ثانوي" ]

/-- The slice `categories`: name, name_ar. -/
def insertDefaultData.categories : List (String × String) :=
  [ ("Cours", "دروس"),
    ("Examens", "اختبارات"),
    ("Exercices", "تمارين"),
    ("Compositions", "فروض"),
    ("Résumés", "ملخصات") ]

/-- The slice `primaireSubjects`: name, name_ar, icon. -/
def insertDefaultData.primaireSubjects : List (String × String × String) :=
  [ ("Mathématiques", "الرياضيات", "📐"),
    ("Arabe", "اللغة العربية", "📖"),
    ("Français", "اللغة الفرنسية", "🇫🇷"),
    ("Anglais", "اللغة الإنجليزية", "🇬🇧"),
    ("Éducation Islamique", "التربية الإسلامية", "✨"),
    ("Sciences et Technologie", "التربية العلمية والتكنولوجية", "🔬"),
    ("Arts", "التربية الفنية", "🎨"),
    ("Éducation Civique", "التربية المدنية", "🏛️"),
    ("Musique", "التربية الموسيقية", "🎵"),
    ("Amazigh", "اللغة الأمازيغية", "ⵣ"),
    ("Activités", "أنشطة", "🖥️"),
    ("Écriture", "تعلم الكتابة", "✏️"),
    ("Fichiers divers", "ملفات متنوعة", "📁"),
    ("Chaînes YouTube", "قنوات يوتيوب", "▶️"),
    ("Conseils", "نصائح وتوجيهات", "💡"),
    ("Page principale", "الصفحة الرئيسية", "🏠") ]

/-- The slice `moyenSubjects`: name, name_ar, icon. -/
def insertDefaultData.moyenSubjects : List (String × String × String) :=
  [ ("Mathématiques", "الرياضيات", "📐"),
    ("Arabe", "اللغة العربية", "📖"),
    ("Français", "اللغة الفرنسية", "🇫🇷"),
    ("Anglais", "اللغة الإنجليزية", "🇬🇧"),
    ("Éducation Islamique", "التربية الإسلامية", "✨"),
    ("Histoire et Géographie", "التاريخ والجغرافيا", "🌍"),
    ("Sciences de la Nature et de la Vie", "علوم الطبيعة والحياة", "🔬"),
    ("Sciences Physiques", "العلوم الفيزيائية", "⚗️"),
    ("Éducation Civique", "التربية المدنية", "🏛️"),
    ("Arts", "التربية الفنية", "🎨"),
    ("Amazigh", "اللغة الأمازيغية", "ⵣ"),
    ("Informatique", "الإعلام الآلي", "💻"),
    ("Musique", "التربية الموسيقية", "🎵"),
    ("Chaînes YouTube", "قنوات يوتيوب", "▶️"),
    ("Calculateur de moyenne", "برنامج حساب المعدل", "🧮"),
    ("Page principale", "الصفحة الرئيسية", "🏠"),
    ("Conseils", "نصائح وتوجيهات", "💡") ]

/-- The slice `lycee1Subjects`: name, name_ar, icon. -/
def insertDefaultData.lycee1Subjects : List (String × String × String) :=
  [ ("Mathématiques", "الرياضيات", "📐"),
    ("Arabe", "اللغة العربية", "📖"),
    ("Français", "اللغة الفرنسية", "🇫🇷"),
    ("Anglais", "اللغة الإنجليزية", "🇬🇧"),
    ("Éducation Islamique", "التربية الإسلامية", "✨"),
    ("Histoire et Géographie", "التاريخ والجغرافيا", "🌍"),
    ("Sciences de la Nature et de la Vie", "علوم الطبيعة والحياة", "🔬"),
    ("Sciences Physiques", "العلوم الفيزيائية", "⚗️"),
    ("Technologie", "التكنولوجيا", "⚙️"),
    ("Informatique", "الإعلام الآلي", "💻"),
    ("Amazigh", "اللغة الأمازيغية", "ⵣ"),
    ("Arts", "التربية الفنية", "🎨"),
    ("Fichiers divers", "ملفات متنوعة", "📁"),
    ("Chaînes YouTube", "قنوات يوتيوب", "▶️"),
    ("Calculateur de moyenne", "برنامج حساب المعدل", "🧮"),
    ("Page principale", "الصفحة الرئيسية", "🏠"),
    ("Conseils", "نصائح وتوجيهات", "💡") ]

/-- The slice `lycee2Subjects`: name, name_ar, icon. -/
def insertDefaultData.lycee2Subjects : List (String × String × String) :=
  [ ("Mathématiques", "الرياضيات", "📐"),
    ("Arabe", "اللغة العربية", "📖"),
    ("Français", "اللغة الفرنسية", "🇫🇷"),
    ("Anglais", "اللغة الإنجليزية", "🇬🇧"),
    ("Éducation Islamique", "التربية الإسلامية", "✨"),
    ("Histoire et Géographie", "التاريخ والجغرافيا", "🌍"),
    ("Sciences de la Nature et de la Vie", "علوم الطبيعة والحياة", "🔬"),
    ("Sciences Physiques", "العلوم الفيزيائية", "⚗️"),
    ("Gestion Comptable et Financière", "التسيير المحاسبي والمالي", "📊"),
    ("Économie et Management", "الإقتصاد والمناجمنت", "📈"),
    ("Droit", "القانون", "⚖️"),
    ("Génie Civil", "الهندسة المدنية", "🏗️"),
    ("Génie des Procédés", "هندسة الطرائق", "🔧"),
    ("Génie Mécanique", "الهندسة الميكانيكية", "⚙️"),
    ("Génie Électrique", "الهندسة الكهربائية", "⚡"),
    ("Espagnol", "اللغة الإسبانية", "🇪🇸"),
    ("Allemand", "اللغة الألمانية", "🇩🇪"),
    ("Amazigh", "اللغة الأمازيغية", "ⵣ"),
    ("Italien", "اللغة الإيطالية", "🇮🇹"),
    ("Philosophie", "الفلسفة", "🤔"),
    ("Arts", "التربية الفنية", "🎨"),
    ("Fichiers divers", "ملفات متنوعة", "📁"),
    ("Chaînes YouTube", "قنوات يوتيوب", "▶️"),
    ("Calculateur de moyenne", "برنامج حساب المعدل", "🧮"),
    ("Page principale", "الصفحة الرئيسية", "🏠"),
    ("Conseils", "نصائح وتوجيهات", "💡") ]

/-- The slice `lycee3Subjects`: name, name_ar, icon. -/
def insertDefaultData.lycee3Subjects : List (String × String × String) :=
  [ ("Mathématiques", "الرياضيات", "📐"),
    ("Arabe", "اللغة العربية", "📖"),
    ("Français", "اللغة الفرنسية", "🇫🇷"),
    ("Anglais", "اللغة الإنجليزية", "🇬🇧"),
    ("Éducation Islamique", "التربية الإسلامية", "✨"),
    ("Histoire et Géographie", "التاريخ والجغرافيا", "🌍"),
    ("Sciences de la Nature et de la Vie", "علوم الطبيعة والحياة", "🔬"),
    ("Sciences Physiques", "العلوم الفيزيائية", "⚗️"),
    ("Philosophie", "الفلسفة", "🤔"),
    ("Gestion Comptable et Financière", "التسيير المحاسبي والمالي", "📊"),
    ("Économie et Management", "الإقتصاد والمناجمنت", "📈"),
    ("Droit", "القانون", "⚖️"),
    ("Génie Civil", "الهندسة المدنية", "🏗️"),
    ("Génie des Procédés", "هندسة الطرائق", "🔧"),
    ("Génie Mécanique", "الهندسة الميكانيكية", "⚙️"),
    ("Génie Électrique", "الهندسة الكهربائية", "⚡"),
    ("Espagnol", "اللغة الإسبانية", "🇪🇸"),
    ("Allemand", "اللغة الألمانية", "🇩🇪"),
    ("Amazigh", "اللغة الأمازيغية", "ⵣ"),
    ("Italien", "اللغة الإيطالية", "🇮🇹"),
    ("Portail Universitaire", "بوابة التعليم الجامعي", "🎓"),
    ("Guide du Baccalauréat", "مواضيع ودليل شهادة الباكالوريا", "📝"),
    ("Chaînes YouTube", "قنوات يوتيوب", "▶️"),
    ("Calculateur de moyenne", "برنامج حساب المعدل", "🧮"),
    ("Page principale", "الصفحة الرئيسية", "🏠"),
    ("Conseils", "نصائح وتوجيهات", "💡") ]

/-- The statements of one loop of `insertDefaultData`, run in order.  The
second component counts the statements run so far; statement number `k` reads
`clock k` as the engine's `CURRENT_TIMESTAMP`. -/
def execAll (clock : Nat → Time) (stmts : List (Time → DB → DB)) (st : DB × Nat) : DB × Nat :=
  stmts.foldl (fun st stmt => (stmt (clock st.2) st.1, st.2 + 1)) st

/-- The function `insertDefaultData`: nothing happens when `levels` has a
row; otherwise the levels, the years (under the level keys 1, 2 and 3), the
categories and the subjects (under the year keys 1 to 12) are inserted.  The
result carries the returned error, `none` for `nil`. -/
def insertDefaultData (db : DB) (clock : Nat → Time) : DB × Option String :=
  if db.levels.count > 0 then (db, none)
  else
    let st := execAll clock
      (insertDefaultData.levels.map (fun l => fun now db =>
        (insertLevel db now l.1 l.2.1 l.2.2).2)) (db, 0)
    let st := execAll clock
      (insertDefaultData.primaireYears.enum.map (fun iy => fun now db =>
        (insertYear db now 1 ("Année " ++ toString (iy.1 + 1) ++ " primaire") iy.2).2)) st
    let st := execAll clock
      (insertDefaultData.moyenYears.enum.map (fun iy => fun now db =>
        (insertYear db now 2 ("Année " ++ toString (iy.1 + 1) ++ " moyen") iy.2).2)) st
    let st := execAll clock
      (insertDefaultData.lyceeYears.enum.map (fun iy => fun now db =>
        (insertYear db now 3 ("Année " ++ toString (iy.1 + 1) ++ " secondaire") iy.2).2)) st
    let st := execAll clock
      (insertDefaultData.categories.map (fun c => fun now db =>
        (insertCategory db now c.1 c.2).2)) st
    let st := execAll clock
      ((List.range' 1 5).flatMap (fun yearID =>
        insertDefaultData.primaireSubjects.map (fun s => fun now db =>
          (insertSubject db now yearID s.1 s.2.1 s.2.2).2))) st
    let st := execAll clock
      ((List.range' 6 4).flatMap (fun yearID =>
        insertDefaultData.moyenSubjects.map (fun s => fun now db =>
          (insertSubject db now yearID s.1 s.2.1 s.2.2).2))) st
    let st := execAll clock
      (insertDefaultData.lycee1Subjects.map (fun s => fun now db =>
        (insertSubject db now 10 s.1 s.2.1 s.2.2).2)) st
    let st := execAll clock
      (insertDefaultData.lycee2Subjects.map (fun s => fun now db =>
        (insertSubject db now 11 s.1 s.2.1 s.2.2).2)) st
    let st := execAll clock
      (insertDefaultData.lycee3Subjects.map (fun s => fun now db =>
        (insertSubject db now 12 s.1 s.2.1 s.2.2).2)) st
    (st.1, none)

/-! ## The interface -/

/-- The routes registered in `main`, each with what the handler reads from the
request and from its surroundings. -/
inductive Request where
  | GetLevels
  | GetYears (levelID : Int)
  | GetSubjects (yearID : Int)
  | GetCategories
  | GetDocuments (subjectID : Int)
  | DownloadDocument (docID : Int)
  | GetStats
  | GetAllYears
  | GetAllSubjects
  | GetAllDocuments
  | CreateLevel (now : Time) (body : Except String Level)
  | UpdateLevel (id : Int) (body : Except String Level)
  | DeleteLevel (id : Int)
  | CreateYear (now : Time) (body : Except String Year)
  | UpdateYear (id : Int) (body : Except String Year)
  | DeleteYear (id : Int)
  | CreateSubject (now : Time) (body : Except String Subject)
  | UpdateSubject (id : Int) (body : Except String Subject)
  | DeleteSubject (id : Int)
  | CreateCategory (now : Time) (body : Except String Category)
  | UpdateCategory (id : Int) (body : Except String Category)
  | DeleteCategory (id : Int)
  | UploadDocument (env : UploadEnv) (file : Option FileHeader) (subjectID categoryID : Int)
      (title : String)
  | DeleteDocument (removeOk : Bool) (docID : Int)

/-- A handler that only touches the database, run on the whole state. -/
def onDB (w : World) (r : DB × Response) : World × Response :=
  ({ w with db := r.1 }, r.2)

/-- The dispatch of `main`: the state and the response after one request. -/
def handle (w : World) : Request → World × Response
  | .GetLevels => (w, GetLevels w.db)
  | .GetYears levelID => (w, GetYears w.db levelID)
  | .GetSubjects yearID => (w, GetSubjects w.db yearID)
  | .GetCategories => (w, GetCategories w.db)
  | .GetDocuments subjectID => (w, GetDocuments w.db subjectID)
  | .DownloadDocument docID => onDB w (DownloadDocument w.db docID)
  | .GetStats => (w, GetStats w.db)
  | .GetAllYears => (w, GetAllYears w.db)
  | .GetAllSubjects => (w, GetAllSubjects w.db)
  | .GetAllDocuments => (w, GetAllDocuments w.db)
  | .CreateLevel now body => onDB w (CreateLevel w.db now body)
  | .UpdateLevel id body => onDB w (UpdateLevel w.db id body)
  | .DeleteLevel id => onDB w (DeleteLevel w.db id)
  | .CreateYear now body => onDB w (CreateYear w.db now body)
  | .UpdateYear id body => onDB w (UpdateYear w.db id body)
  | .DeleteYear id => onDB w (DeleteYear w.db id)
  | .CreateSubject now body => onDB w (CreateSubject w.db now body)
  | .UpdateSubject id body => onDB w (UpdateSubject w.db id body)
  | .DeleteSubject id => onDB w (DeleteSubject w.db id)
  | .CreateCategory now body => onDB w (CreateCategory w.db now body)
  | .UpdateCategory id body => onDB w (UpdateCategory w.db id body)
  | .DeleteCategory id => onDB w (DeleteCategory w.db id)
  | .UploadDocument env file subjectID categoryID title =>
    UploadDocument w env file subjectID categoryID title
  | .DeleteDocument removeOk docID => DeleteDocument w removeOk docID

/-- The state after `initDB` has run `insertDefaultData` on it. -/
def seed (w : World) (clock : Nat → Time) : World :=
  { w with db := (insertDefaultData w.db clock).1 }

/-! ## Well-formed tables -/

/-- The constraint `PRIMARY KEY` on a table: no two rows share a key. -/
def Table.KeysUnique (t : Table α) : Prop := (t.rows.map rowid).Nodup

instance (t : Table α) : Decidable t.KeysUnique := by
  unfold Table.KeysUnique; infer_instance

/-- The five `PRIMARY KEY` constraints of the schema. -/
def DB.KeysUnique (db : DB) : Prop :=
  db.levels.KeysUnique ∧ db.years.KeysUnique ∧ db.subjects.KeysUnique ∧
    db.categories.KeysUnique ∧ db.documents.KeysUnique

/-! ## A small state for examples -/

/-- Two levels, four years (the last under a level that is not stored), one
subject, two categories and two documents. -/
def sampleDB : DB :=
  { levels :=
      { rows := [⟨1, "Primaire", "ابتدائي", "red", 0⟩, ⟨2, "Moyen", "متوسط", "green", 0⟩],
        seq := 2 }
    years :=
      { rows := [⟨1, 1, "Année 1", "الأولى", 0⟩, ⟨2, 2, "Année 1 moyen", "الأولى متوسط", 0⟩,
                 ⟨3, 1, "Année 2", "الثانية", 0⟩, ⟨4, 9, "Année 9", "التاسعة", 0⟩],
        seq := 4 }
    subjects := { rows := [⟨5, 1, "Arabe", "العربية", "A", 0⟩], seq := 5 }
    categories := { rows := [⟨1, "Cours", "دروس", 0⟩, ⟨2, "Examens", "اختبارات", 0⟩], seq := 2 }
    documents :=
      { rows := [⟨1, 5, 2, "Test", "a.pdf", "uploads/100_a.pdf", 10, 0, 100⟩,
                 ⟨2, 5, 1, "Cours 1", "b.pdf", "uploads/200_b.pdf", 3, 7, 200⟩],
        seq := 2 } }

/-- The state `sampleDB` with the two files of its documents. -/
def sampleWorld : World :=
  { db := sampleDB
    fs :=
      { uploadsDir := true
        files := [("uploads/100_a.pdf", [1, 2, 3, 4, 5, 6, 7, 8, 9, 10]),
                  ("uploads/200_b.pdf", [7, 7, 7])] } }

/-- The database of a new file after `initDB` has seeded it and the four
levels have been deleted through `DeleteLevel`: the table `levels` is empty,
its key sequence stands at 4, and the seeded years and subjects are still
stored. -/
def wipedDB : DB :=
  (DeleteLevel (DeleteLevel (DeleteLevel (DeleteLevel
    (insertDefaultData DB.empty (fun k => (k : Int))).1 1).1 2).1 3).1 4).1

/-- The database after `insertDefaultData` has run on `wipedDB`, as at the
next start of the server. -/
def reseededDB : DB := (insertDefaultData wipedDB (fun k => (k : Int))).1

/-! ## Decimal text -/

/-- The value of a decimal digit character. -/
def digitValue (c : Char) : Nat := c.toNat - 48

/-- The number written by a list of decimal digits. -/
def decimalValue (l : List Char) : Nat := l.foldl (fun acc c => 10 * acc + digitValue c) 0

/-! ## Concurrent downloads

Several requests for the same document run `DownloadDocument` at once.  Each
request sends two statements, the `SELECT` and then the `UPDATE`; the engine
runs a statement as one step, and the statements of different requests may
come in any order. -/

/-- Where one request stands in `DownloadDocument`: before its `SELECT`, after
it with the row it read, or finished with its response. -/
inductive Caller where
  | start
  | found (doc : DocumentRow)
  | done (resp : Response)
deriving DecidableEq, Repr

/-- Whether the request has finished. -/
def Caller.isDone : Caller → Bool
  | .done _ => true
  | _ => false

/-- The number of statements the request has behind it, 2 once finished. -/
def Caller.phase : Caller → Nat
  | .start => 0
  | .found _ => 1
  | .done _ => 2

/-- The next statement of one request for `docID`, run on the shared database:
the `SELECT` (without a row the request ends with 404), then
`UPDATE documents SET downloads = downloads + 1 WHERE id = ?` and the
response; a finished request does nothing. -/
def stepCaller (docID : Int) (db : DB) : Caller → DB × Caller
  | .start =>
    match db.documents.queryRow docID with
    | none => (db, .done (.json 404 (.error "Document not found")))
    | some doc => (db, .found doc)
  | .found doc =>
    ({ db with documents :=
        db.documents.update docID (fun d => { d with downloads := d.downloads + 1 }) },
     .done (.fileAttachment doc.file_path doc.file_name))
  | .done resp => (db, .done resp)

/-- The request number `i` of the list runs its next statement; the others
wait. -/
def stepAt (docID : Int) (db : DB) : List Caller → Nat → DB × List Caller
  | [], _ => (db, [])
  | c :: cs, 0 => ((stepCaller docID db c).1, (stepCaller docID db c).2 :: cs)
  | c :: cs, i + 1 => ((stepAt docID db cs i).1, c :: (stepAt docID db cs i).2)

/-- An interleaving: the schedule names, step by step, the request whose next
statement the engine runs. -/
def runSchedule (docID : Int) (s : DB × List Caller) (sched : List Nat) : DB × List Caller :=
  sched.foldl (fun s i => stepAt docID s.1 s.2 i) s

/-- The database with `downloads` of the document `docID` raised by `k`. -/
def bumpDownloads (db : DB) (docID : Int) (k : Nat) : DB :=
  { db with documents :=
      db.documents.update docID (fun d => { d with downloads := d.downloads + (k : Int) }) }

/-! ## Theorems -/

/-- In a list without repeated keys, the rows with the key of a member are
that member alone. -/
theorem filter_key_eq_singleton {β : Type} (f : β → Int) (l : List β)
    (h : (l.map f).Nodup) (x : β) (hx : x ∈ l) :
    l.filter (fun r => decide (f x = f r)) = [x] := by
  induction l with
  | nil => cases hx
  | cons a l ih =>
    rw [List.map_cons, List.nodup_cons] at h
    rcases List.mem_cons.1 hx with rfl | hx
    · have hnone : l.filter (fun r => decide (f x = f r)) = [] := by
        rw [List.filter_eq_nil_iff]
        intro r hr hfr
        exact h.1 (by rw [of_decide_eq_true hfr]; exact List.mem_map_of_mem f hr)
      simp [List.filter_cons, hnone]
    · have hne : f x ≠ f a := fun e => h.1 (by rw [← e]; exact List.mem_map_of_mem f hx)
      simp [List.filter_cons, hne, ih h.2 hx]

/-- A join restricted to the rows whose foreign key is the key of a member `x`
of the joined table pairs exactly the rows with that foreign key with `x`. -/
theorem innerJoin_filter_key {β γ : Type} (fk : β → Int) (key : γ → Int)
    (a : List β) (b : List γ) (hb : (b.map key).Nodup) (x : γ) (hx : x ∈ b) :
    (innerJoin a b (fun r s => decide (fk r = key s))).filter
        (fun p => decide (fk p.1 = key x))
      = (a.filter (fun r => decide (fk r = key x))).map (fun r => (r, x)) := by
  induction a with
  | nil => rfl
  | cons r a ih =>
    have hcons : innerJoin (r :: a) b (fun r s => decide (fk r = key s))
        = (b.filter (fun s => decide (fk r = key s))).map (fun s => (r, s))
          ++ innerJoin a b (fun r s => decide (fk r = key s)) := by
      simp [innerJoin, List.flatMap_cons]
    rw [hcons, List.filter_append, ih]
    by_cases hr : fk r = key x
    · have hs : b.filter (fun s => decide (fk r = key s)) = [x] := by
        rw [hr]; exact filter_key_eq_singleton key b hb x hx
      rw [hs]
      simp [hr, List.filter_cons]
    · have hnil : ((b.filter (fun s => decide (fk r = key s))).map (fun s => (r, s))).filter
          (fun p => decide (fk p.1 = key x)) = [] := by
        rw [List.filter_eq_nil_iff]
        intro p hp
        rcases List.mem_map.1 hp with ⟨s, _, rfl⟩
        simp [hr]
      simp [hnil, hr, List.filter_cons]

/-- Ordering by a key rearranges the rows and nothing else. -/
theorem orderBy_key_perm {β : Type} (f : β → Int) (l : List β) :
    (orderBy (fun p q : β => f p ≤ f q) l).Perm l :=
  List.perm_insertionSort _ l

/-- Ordering rows without repeated keys by the key gives strictly ascending
keys. -/
theorem orderBy_key_strict {β : Type} (f : β → Int) (l : List β) (h : (l.map f).Nodup) :
    (orderBy (fun p q : β => f p ≤ f q) l).Pairwise (fun p q => f p < f q) := by
  haveI : IsTotal β (fun p q : β => f p ≤ f q) := ⟨fun a b => le_total (f a) (f b)⟩
  haveI : IsTrans β (fun p q : β => f p ≤ f q) := ⟨fun _ _ _ hab hbc => le_trans hab hbc⟩
  have hs : (orderBy (fun p q : β => f p ≤ f q) l).Pairwise (fun p q => f p ≤ f q) :=
    List.sorted_insertionSort _ l
  have hn : ((orderBy (fun p q : β => f p ≤ f q) l).map f).Nodup :=
    ((orderBy_key_perm f l).map f).nodup_iff.2 h
  have hne : (orderBy (fun p q : β => f p ≤ f q) l).Pairwise (fun p q => f p ≠ f q) :=
    List.pairwise_map.1 hn
  exact (hs.and hne).imp (fun hab => lt_of_le_of_ne hab.1 hab.2)

/-- C1: with the primary keys of `levels` and `years` unique, `GetYears` for
the key of a stored level `L` answers 200 with exactly the rows of `years`
whose `level_id` is that key (a rearrangement of them, each once), every one
carrying the `name_ar` of `L` as `level_name`, in strictly ascending `id`
order; no row with another `level_id` is in the answer. -/
theorem C1_GetYears_of_level (db : DB) (L : Level)
    (hl : db.levels.KeysUnique) (hy : db.years.KeysUnique) (hL : L ∈ db.levels.rows) :
    ∃ ys : List Year,
      GetYears db L.ID = .json 200 (.years ys) ∧
      ys.Perm ((db.years.rows.filter (fun y => decide (y.level_id = L.ID))).map
        (fun y => scanYear (y, L))) ∧
      ys.Pairwise (fun a b => a.ID < b.ID) ∧
      (∀ y ∈ ys, y.LevelID = L.ID ∧ y.LevelName = L.NameAr) := by
  have hsel := innerJoin_filter_key (fun y : YearRow => y.level_id) (fun l : Level => l.ID)
    db.years.rows db.levels.rows hl L hL
  simp only [] at hsel
  refine ⟨_, rfl, ?_, ?_, ?_⟩
  · rw [hsel]
    have hp := (orderBy_key_perm (fun p : YearRow × Level => p.1.id)
      ((db.years.rows.filter (fun y => decide (y.level_id = L.ID))).map (fun y => (y, L)))).map
      scanYear
    simpa [List.map_map, Function.comp_def] using hp
  · rw [hsel, List.pairwise_map]
    apply orderBy_key_strict (fun p : YearRow × Level => p.1.id)
    rw [List.map_map]
    exact hy.sublist ((List.filter_sublist _).map _)
  · intro y hy'
    rw [hsel] at hy'
    rcases List.mem_map.1 hy' with ⟨p, hp, rfl⟩
    have hp' := (orderBy_key_perm (fun p : YearRow × Level => p.1.id) _).mem_iff.1 hp
    rcases List.mem_map.1 hp' with ⟨r, hr, rfl⟩
    exact ⟨by simpa using (List.mem_filter.1 hr).2, rfl⟩

/-- C1 at `sampleDB` and its level 1. -/
theorem C1_GetYears_of_level_witness :
    ∃ ys : List Year,
      GetYears sampleDB 1 = .json 200 (.years ys) ∧
      ys.Perm ((sampleDB.years.rows.filter (fun y => decide (y.level_id = 1))).map
        (fun y => scanYear (y, ⟨1, "Primaire", "ابتدائي", "red", 0⟩))) ∧
      ys.Pairwise (fun a b => a.ID < b.ID) ∧
      (∀ y ∈ ys, y.LevelID = 1 ∧ y.LevelName = "ابتدائي") :=
  C1_GetYears_of_level sampleDB ⟨1, "Primaire", "ابتدائي", "red", 0⟩
    (by decide) (by decide) (by decide)

@[simp] theorem rowid_level (r : Level) : rowid r = r.ID := rfl
@[simp] theorem rowid_category (r : Category) : rowid r = r.ID := rfl
@[simp] theorem rowid_yearRow (r : YearRow) : rowid r = r.id := rfl
@[simp] theorem rowid_subjectRow (r : SubjectRow) : rowid r = r.id := rfl
@[simp] theorem rowid_documentRow (r : DocumentRow) : rowid r = r.id := rfl

/-- Two rows of a table with unique keys that share a key are the same row. -/
theorem Table.KeysUnique.eq_of_rowid_eq {t : Table α} (h : t.KeysUnique) {a b : α}
    (ha : a ∈ t.rows) (hb : b ∈ t.rows) (hab : rowid a = rowid b) : a = b :=
  List.inj_on_of_nodup_map h ha hb hab

/-- The point query finds a stored row by its key when keys are unique. -/
theorem Table.queryRow_of_mem {t : Table α} (h : t.KeysUnique) {d : α} (hd : d ∈ t.rows) :
    t.queryRow (rowid d) = some d := by
  unfold Table.queryRow
  cases hf : t.rows.find? (fun r => decide (rowid r = rowid d)) with
  | none =>
    have := List.find?_eq_none.1 hf d hd
    simp at this
  | some r =>
    have hr := List.find?_some hf
    have hm := List.mem_of_find?_eq_some hf
    rw [h.eq_of_rowid_eq hm hd (of_decide_eq_true hr)]

/-- The point query finds nothing for a key no row has. -/
theorem Table.queryRow_of_absent {t : Table α} {id : Int}
    (h : ∀ r ∈ t.rows, rowid r ≠ id) : t.queryRow id = none := by
  unfold Table.queryRow
  rw [List.find?_eq_none]
  intro r hr
  simpa using h r hr

/-- C2: with the primary key of `documents` unique, `DownloadDocument` for the
key of a stored row `d` sends the file under the `file_path` and `file_name`
of `d`, and the database afterwards is the one before with `downloads` of `d`
one higher: every other row of `documents`, the sequence counter and the four
other tables are as before.  For a key without a row the answer is 404 and
the database is unchanged. -/
theorem C2_DownloadDocument (db : DB) (hk : db.documents.KeysUnique) :
    (∀ d ∈ db.documents.rows,
      DownloadDocument db d.id =
        ({ db with documents :=
            { rows := db.documents.rows.map
                (fun r => if r = d then { d with downloads := d.downloads + 1 } else r)
              seq := db.documents.seq } },
         .fileAttachment d.file_path d.file_name)) ∧
    (∀ docID : Int, (∀ r ∈ db.documents.rows, r.id ≠ docID) →
      DownloadDocument db docID = (db, .json 404 (.error "Document not found"))) := by
  constructor
  · intro d hd
    have hq : db.documents.queryRow d.id = some d := Table.queryRow_of_mem hk hd
    have hmap : db.documents.rows.map
          (fun r => if rowid r = d.id then { r with downloads := r.downloads + 1 } else r)
        = db.documents.rows.map
          (fun r => if r = d then { d with downloads := d.downloads + 1 } else r) := by
      apply List.map_congr_left
      intro r hr
      by_cases hrd : r = d
      · subst hrd; simp
      · have hne : r.id ≠ d.id := fun e => hrd (hk.eq_of_rowid_eq hr hd e)
        simp [hrd, hne]
    simp only [DownloadDocument, hq, Table.update, hmap]
  · intro docID habs
    have hq : db.documents.queryRow docID = none := Table.queryRow_of_absent habs
    simp only [DownloadDocument, hq]

/-- C2 at `sampleDB`: document 1 is found, key 3 is not. -/
theorem C2_DownloadDocument_witness :
    (DownloadDocument sampleDB 1).2 = .fileAttachment "uploads/100_a.pdf" "a.pdf" ∧
    (DownloadDocument sampleDB 1).1.documents.rows.map (fun r => (r.id, r.downloads))
      = [(1, 1), (2, 7)] ∧
    DownloadDocument sampleDB 3 = (sampleDB, .json 404 (.error "Document not found")) := by
  have h := C2_DownloadDocument sampleDB (by decide)
  refine ⟨?_, ?_, h.2 3 (by decide)⟩
  · rw [h.1 ⟨1, 5, 2, "Test", "a.pdf", "uploads/100_a.pdf", 10, 0, 100⟩ (by decide)]
  · rw [h.1 ⟨1, 5, 2, "Test", "a.pdf", "uploads/100_a.pdf", 10, 0, 100⟩ (by decide)]
    decide

/-- Every stored key is below the key the next insert assigns. -/
theorem lastRowid_ge (l : List α) (r : α) (hr : r ∈ l) :
    ∃ m, lastRowid l = some m ∧ rowid r ≤ m := by
  induction l with
  | nil => cases hr
  | cons a l ih =>
    rcases List.mem_cons.1 hr with rfl | hr
    · cases h : lastRowid l with
      | none => exact ⟨rowid r, by simp [lastRowid, h], le_refl _⟩
      | some m => exact ⟨max (rowid r) m, by simp [lastRowid, h], le_max_left _ _⟩
    · obtain ⟨m, hm, hle⟩ := ih hr
      exact ⟨max (rowid a) m, by simp [lastRowid, hm], le_trans hle (le_max_right _ _)⟩

/-- The key of an insert is larger than every key in the table. -/
theorem Table.rowid_lt_newRowid (t : Table α) (r : α) (hr : r ∈ t.rows) :
    rowid r < t.newRowid := by
  obtain ⟨m, hm, hle⟩ := lastRowid_ge t.rows r hr
  unfold Table.newRowid
  simp only [hm]
  split <;> omega

/-- The file written by a successful save holds the saved bytes. -/
theorem FileSystem.read_saveUploadedFile {fs fs2 : FileSystem} {allowed : Bool}
    {dst : String} {content : List UInt8}
    (h : fs.saveUploadedFile allowed dst content = some fs2) : fs2.read dst = some content := by
  unfold FileSystem.saveUploadedFile at h
  split at h
  · cases h
    simp [FileSystem.read]
  · cases h

/-- C4: when `UploadDocument` answers 200, a file was supplied and the
`documents` table afterwards is the table before followed by one row with a
key no earlier row has; that row has the supplied `subject_id`, `category_id`
and title, the original file name as `file_name`, as `file_path` the path the
bytes were written to (the file at that path holds exactly the uploaded
bytes), the number of those bytes as `file_size`, and `downloads` 0. -/
theorem C4_UploadDocument_row (w : World) (env : UploadEnv) (file : Option FileHeader)
    (subjectID categoryID : Int) (title : String)
    (hok : ∃ p, (UploadDocument w env file subjectID categoryID title).2 = .json 200 p) :
    ∃ (f : FileHeader) (row : DocumentRow),
      file = some f ∧
      (UploadDocument w env file subjectID categoryID title).1.db.documents.rows
        = w.db.documents.rows ++ [row] ∧
      (∀ r ∈ w.db.documents.rows, r.id ≠ row.id) ∧
      row.subject_id = subjectID ∧ row.category_id = categoryID ∧ row.title = title ∧
      row.file_name = f.Filename ∧
      row.file_path = filepathJoin "uploads" (storedFileName env.unixNow f.Filename) ∧
      (UploadDocument w env file subjectID categoryID title).1.fs.read row.file_path
        = some f.content ∧
      row.file_size = f.content.length ∧
      row.downloads = 0 := by
  obtain ⟨p, hp⟩ := hok
  cases file with
  | none => simp [UploadDocument] at hp
  | some f =>
    cases hs : (w.fs.mkdirAll env.mkdirOk).saveUploadedFile env.saveOk
        (filepathJoin "uploads" (storedFileName env.unixNow f.Filename)) f.content with
    | none => simp [UploadDocument, hs] at hp
    | some fs2 =>
      refine ⟨f, ⟨w.db.documents.newRowid, subjectID, categoryID, title, f.Filename,
        filepathJoin "uploads" (storedFileName env.unixNow f.Filename), f.Size, 0, env.now⟩,
        rfl, ?_, ?_, rfl, rfl, rfl, rfl, rfl, ?_, rfl, rfl⟩
      · simp [UploadDocument, hs, insertDocument, Table.insert]
      · intro r hr
        have := Table.rowid_lt_newRowid w.db.documents r hr
        simp only [rowid_documentRow] at this
        show r.id ≠ w.db.documents.newRowid
        omega
      · simp only [UploadDocument, hs]
        exact FileSystem.read_saveUploadedFile hs

/-- C4 at `sampleWorld`: a 10-byte file titled "Test" under subject 5 and
category 2. -/
theorem C4_UploadDocument_row_witness :
    ∃ (f : FileHeader) (row : DocumentRow),
      some (⟨"dir/t.pdf", [0, 1, 2, 3, 4, 5, 6, 7, 8, 9]⟩ : FileHeader) = some f ∧
      (UploadDocument sampleWorld ⟨true, 1700000000, true, 300⟩
          (some ⟨"dir/t.pdf", [0, 1, 2, 3, 4, 5, 6, 7, 8, 9]⟩) 5 2 "Test").1.db.documents.rows
        = sampleWorld.db.documents.rows ++ [row] ∧
      (∀ r ∈ sampleWorld.db.documents.rows, r.id ≠ row.id) ∧
      row.subject_id = 5 ∧ row.category_id = 2 ∧ row.title = "Test" ∧
      row.file_name = f.Filename ∧
      row.file_path = filepathJoin "uploads" (storedFileName 1700000000 f.Filename) ∧
      (UploadDocument sampleWorld ⟨true, 1700000000, true, 300⟩
          (some ⟨"dir/t.pdf", [0, 1, 2, 3, 4, 5, 6, 7, 8, 9]⟩) 5 2 "Test").1.fs.read row.file_path
        = some f.content ∧
      row.file_size = f.content.length ∧
      row.downloads = 0 :=
  C4_UploadDocument_row sampleWorld ⟨true, 1700000000, true, 300⟩
    (some ⟨"dir/t.pdf", [0, 1, 2, 3, 4, 5, 6, 7, 8, 9]⟩) 5 2 "Test" ⟨_, rfl⟩

/-- Deleting by key removes exactly one row when the key is stored and keys
are unique. -/
theorem length_filter_ne_of_nodup {β : Type} (f : β → Int) (l : List β)
    (h : (l.map f).Nodup) (x : β) (hx : x ∈ l) :
    ((l.filter (fun r => decide (f r ≠ f x))).length : Int) = (l.length : Int) - 1 := by
  induction l with
  | nil => cases hx
  | cons a l ih =>
    rw [List.map_cons, List.nodup_cons] at h
    rcases List.mem_cons.1 hx with rfl | hx
    · have hall : l.filter (fun r => decide (f r ≠ f x)) = l := by
        rw [List.filter_eq_self]
        intro r hr
        have : f r ≠ f x := fun e => h.1 (by rw [← e]; exact List.mem_map_of_mem f hr)
        simpa using this
      rw [List.filter_cons, hall]
      simp
    · have hne : f a ≠ f x := fun e => h.1 (by rw [e]; exact List.mem_map_of_mem f hx)
      have hrec := ih h.2 hx
      have hcons : (a :: l).filter (fun r => decide (f r ≠ f x))
          = a :: l.filter (fun r => decide (f r ≠ f x)) := by
        simp [List.filter_cons, hne]
      rw [hcons, List.length_cons, List.length_cons]
      push_cast
      omega

/-- No row of a table has a key that was just deleted. -/
theorem Table.rowid_ne_of_mem_delete (t : Table α) (id : Int) (r : α)
    (hr : r ∈ (t.delete id).rows) : rowid r ≠ id := by
  have := (List.mem_filter.1 hr).2
  simpa using this

/-- C5: with the primary key of `documents` unique, after `DeleteDocument` for
the key of a stored row (whatever happens to the file) `DownloadDocument` for
that key answers 404, and `total_documents` of `GetStats` is exactly one less
than before the delete. -/
theorem C5_delete_then_fetch (w : World) (removeOk : Bool) (d : DocumentRow)
    (hk : w.db.documents.KeysUnique) (hd : d ∈ w.db.documents.rows) :
    (DownloadDocument (DeleteDocument w removeOk d.id).1.db d.id).2
        = .json 404 (.error "Document not found") ∧
    ∃ before after : Stats,
      GetStats w.db = .json 200 (.stats before) ∧
      GetStats (DeleteDocument w removeOk d.id).1.db = .json 200 (.stats after) ∧
      after.TotalDocuments = before.TotalDocuments - 1 := by
  constructor
  · have hq : (w.db.documents.delete d.id).queryRow d.id = none :=
      Table.queryRow_of_absent (fun r hr => Table.rowid_ne_of_mem_delete _ _ r hr)
    simp only [DownloadDocument, DeleteDocument, hq]
  · refine ⟨_, _, rfl, rfl, ?_⟩
    have := length_filter_ne_of_nodup (fun r : DocumentRow => r.id) w.db.documents.rows hk d hd
    simpa [DeleteDocument, Table.count, Table.delete] using this

/-- C5 at `sampleWorld` and its document 2. -/
theorem C5_delete_then_fetch_witness :
    (DownloadDocument (DeleteDocument sampleWorld true 2).1.db 2).2
        = .json 404 (.error "Document not found") ∧
    ∃ before after : Stats,
      GetStats sampleWorld.db = .json 200 (.stats before) ∧
      GetStats (DeleteDocument sampleWorld true 2).1.db = .json 200 (.stats after) ∧
      after.TotalDocuments = before.TotalDocuments - 1 :=
  C5_delete_then_fetch sampleWorld true ⟨2, 5, 1, "Cours 1", "b.pdf", "uploads/200_b.pdf", 3, 7, 200⟩
    (by decide) (by decide)

/-- The sum the engine reports, with `NULL` read as 0, is the sum of the
values. -/
theorem coalesce_sqlSum (l : List Int) : coalesce (sqlSum l) 0 = l.sum := by
  induction l with
  | nil => rfl
  | cons x xs ih =>
    simp only [sqlSum, coalesce, Option.getD_some, List.sum_cons]
    simp only [coalesce] at ih
    rw [ih]

/-- C7: `GetStats` answers 200 with the numbers of rows of `levels`, `years`,
`subjects` and `documents` and with the sum of `downloads` over the rows of
`documents`; with no document that sum is the number 0. -/
theorem C7_GetStats (db : DB) :
    GetStats db = .json 200 (.stats
      { TotalLevels := db.levels.rows.length
        TotalYears := db.years.rows.length
        TotalSubjects := db.subjects.rows.length
        TotalDocuments := db.documents.rows.length
        TotalDownloads := (db.documents.rows.map (fun d => d.downloads)).sum }) ∧
    (db.documents.rows = [] →
      ∃ st : Stats, GetStats db = .json 200 (.stats st) ∧ st.TotalDownloads = 0) := by
  have h : GetStats db = .json 200 (.stats
      { TotalLevels := db.levels.rows.length
        TotalYears := db.years.rows.length
        TotalSubjects := db.subjects.rows.length
        TotalDocuments := db.documents.rows.length
        TotalDownloads := (db.documents.rows.map (fun d => d.downloads)).sum }) := by
    simp only [GetStats, Table.count, coalesce_sqlSum]
  refine ⟨h, fun he => ⟨_, h, ?_⟩⟩
  simp [he]

/-- C7 at the empty database. -/
theorem C7_GetStats_witness :
    ∃ st : Stats, GetStats DB.empty = .json 200 (.stats st) ∧ st.TotalDownloads = 0 :=
  (C7_GetStats DB.empty).2 rfl

/-- A property of the database that every statement of a loop keeps holds
after the loop when it held before. -/
theorem execAll_preserves (P : DB → Prop) (clock : Nat → Time)
    (stmts : List (Time → DB → DB))
    (h : ∀ s ∈ stmts, ∀ now db, P db → P (s now db)) (st : DB × Nat) (hst : P st.1) :
    P (execAll clock stmts st).1 := by
  induction stmts generalizing st with
  | nil => exact hst
  | cons s rest ih =>
    have hstep : execAll clock (s :: rest) st
        = execAll clock rest (s (clock st.2) st.1, st.2 + 1) := rfl
    rw [hstep]
    exact ih (fun s' hs' => h s' (List.mem_cons_of_mem _ hs')) _
      (h s (List.mem_cons_self _ _) _ _ hst)

/-- A property that every statement of a non-empty loop brings about holds
after the loop. -/
theorem execAll_establishes (P : DB → Prop) (clock : Nat → Time)
    (stmts : List (Time → DB → DB)) (hne : stmts ≠ [])
    (h : ∀ s ∈ stmts, ∀ now db, P (s now db)) (st : DB × Nat) :
    P (execAll clock stmts st).1 := by
  cases stmts with
  | nil => exact absurd rfl hne
  | cons s rest =>
    have hstep : execAll clock (s :: rest) st
        = execAll clock rest (s (clock st.2) st.1, st.2 + 1) := rfl
    rw [hstep]
    exact execAll_preserves P clock rest
      (fun s' hs' now db _ => h s' (List.mem_cons_of_mem _ hs') now db) _
      (h s (List.mem_cons_self _ _) _ _)

/-- After `insertDefaultData` the table `levels` has a row. -/
theorem insertDefaultData_levels_ne_nil (db : DB) (clock : Nat → Time) :
    (insertDefaultData db clock).1.levels.rows ≠ [] := by
  unfold insertDefaultData
  split
  · rename_i hc
    intro he
    have he2 : db.levels.rows = [] := he
    simp [Table.count, he2] at hc
  · refine execAll_preserves (fun d => d.levels.rows ≠ []) clock _ ?_ _ ?_
    · intro s hs now d hd
      rcases List.mem_map.1 hs with ⟨x, _, rfl⟩
      exact hd
    refine execAll_preserves (fun d => d.levels.rows ≠ []) clock _ ?_ _ ?_
    · intro s hs now d hd
      rcases List.mem_map.1 hs with ⟨x, _, rfl⟩
      exact hd
    refine execAll_preserves (fun d => d.levels.rows ≠ []) clock _ ?_ _ ?_
    · intro s hs now d hd
      rcases List.mem_map.1 hs with ⟨x, _, rfl⟩
      exact hd
    refine execAll_preserves (fun d => d.levels.rows ≠ []) clock _ ?_ _ ?_
    · intro s hs now d hd
      rcases List.mem_flatMap.1 hs with ⟨y, _, hs⟩
      rcases List.mem_map.1 hs with ⟨x, _, rfl⟩
      exact hd
    refine execAll_preserves (fun d => d.levels.rows ≠ []) clock _ ?_ _ ?_
    · intro s hs now d hd
      rcases List.mem_flatMap.1 hs with ⟨y, _, hs⟩
      rcases List.mem_map.1 hs with ⟨x, _, rfl⟩
      exact hd
    refine execAll_preserves (fun d => d.levels.rows ≠ []) clock _ ?_ _ ?_
    · intro s hs now d hd
      rcases List.mem_map.1 hs with ⟨x, _, rfl⟩
      exact hd
    refine execAll_preserves (fun d => d.levels.rows ≠ []) clock _ ?_ _ ?_
    · intro s hs now d hd
      rcases List.mem_map.1 hs with ⟨x, _, rfl⟩
      exact hd
    refine execAll_preserves (fun d => d.levels.rows ≠ []) clock _ ?_ _ ?_
    · intro s hs now d hd
      rcases List.mem_map.1 hs with ⟨x, _, rfl⟩
      exact hd
    refine execAll_preserves (fun d => d.levels.rows ≠ []) clock _ ?_ _ ?_
    · intro s hs now d hd
      rcases List.mem_map.1 hs with ⟨x, _, rfl⟩
      exact hd
    refine execAll_establishes (fun d => d.levels.rows ≠ []) clock _
      (by simp [insertDefaultData.levels]) ?_ _
    intro s hs now d
    rcases List.mem_map.1 hs with ⟨x, _, rfl⟩
    simp [insertLevel, Table.insert]

/-- C6: on a database whose table `levels` has a row, `insertDefaultData`
returns `nil` and leaves all five tables as they are; hence running it a
second time, on any database and so on an empty one, changes nothing more:
the state and the number of levels are those after the first run. -/
theorem C6_insertDefaultData_guard (db : DB) (clock clock2 : Nat → Time) :
    (db.levels.rows ≠ [] → insertDefaultData db clock = (db, none)) ∧
    insertDefaultData (insertDefaultData db clock).1 clock2
      = ((insertDefaultData db clock).1, none) ∧
    (insertDefaultData (insertDefaultData DB.empty clock).1 clock2).1.levels.count
      = (insertDefaultData DB.empty clock).1.levels.count := by
  have guard : ∀ (d : DB) (c : Nat → Time), d.levels.rows ≠ [] →
      insertDefaultData d c = (d, none) := by
    intro d c hne
    have hpos : d.levels.count > 0 := by
      unfold Table.count
      have := List.length_pos.2 hne
      omega
    simp only [insertDefaultData, hpos, if_true]
  refine ⟨guard db clock, guard _ clock2 (insertDefaultData_levels_ne_nil db clock), ?_⟩
  rw [guard _ clock2 (insertDefaultData_levels_ne_nil DB.empty clock)]

/-- C6 at `sampleDB`, whose table `levels` has two rows. -/
theorem C6_insertDefaultData_guard_witness :
    insertDefaultData sampleDB (fun k => (k : Int)) = (sampleDB, none) :=
  (C6_insertDefaultData_guard sampleDB (fun k => (k : Int)) (fun k => (k : Int))).1 (by decide)

/-- An update addressed to a key no row has changes no row. -/
theorem Table.update_of_absent (t : Table α) (id : Int) (set : α → α)
    (h : ∀ r ∈ t.rows, rowid r ≠ id) : t.update id set = t := by
  unfold Table.update
  have hm : t.rows.map (fun r => if rowid r = id then set r else r) = t.rows := by
    conv_rhs => rw [← List.map_id t.rows]
    apply List.map_congr_left
    intro r hr
    simp [h r hr]
  rw [hm]

/-- A delete addressed to a key no row has removes no row. -/
theorem Table.delete_of_absent (t : Table α) (id : Int)
    (h : ∀ r ∈ t.rows, rowid r ≠ id) : t.delete id = t := by
  unfold Table.delete
  have hf : t.rows.filter (fun r => decide (rowid r ≠ id)) = t.rows := by
    rw [List.filter_eq_self]
    intro r hr
    simpa using h r hr
  rw [hf]

/-- C9: for each of `levels`, `years`, `subjects` and `categories`, when no
row of the table has the addressed key, the update handler (given a body that
`BindJSON` could read) and the delete handler answer 200 with their success
message and leave the whole database as it is. -/
theorem C9_update_delete_absent (db : DB) (id : Int) :
    ((∀ r ∈ db.levels.rows, r.ID ≠ id) →
      (∀ body : Level, UpdateLevel db id (.ok body)
        = (db, .json 200 (.message "Level updated successfully"))) ∧
      DeleteLevel db id = (db, .json 200 (.message "Level deleted successfully"))) ∧
    ((∀ r ∈ db.years.rows, r.id ≠ id) →
      (∀ body : Year, UpdateYear db id (.ok body)
        = (db, .json 200 (.message "Year updated successfully"))) ∧
      DeleteYear db id = (db, .json 200 (.message "Year deleted successfully"))) ∧
    ((∀ r ∈ db.subjects.rows, r.id ≠ id) →
      (∀ body : Subject, UpdateSubject db id (.ok body)
        = (db, .json 200 (.message "Subject updated successfully"))) ∧
      DeleteSubject db id = (db, .json 200 (.message "Subject deleted successfully"))) ∧
    ((∀ r ∈ db.categories.rows, r.ID ≠ id) →
      (∀ body : Category, UpdateCategory db id (.ok body)
        = (db, .json 200 (.message "Category updated successfully"))) ∧
      DeleteCategory db id = (db, .json 200 (.message "Category deleted successfully"))) := by
  refine ⟨fun h => ⟨fun body => ?_, ?_⟩, fun h => ⟨fun body => ?_, ?_⟩,
    fun h => ⟨fun body => ?_, ?_⟩, fun h => ⟨fun body => ?_, ?_⟩⟩
  · simp only [UpdateLevel, Table.update_of_absent db.levels id _ h]
  · simp only [DeleteLevel, Table.delete_of_absent db.levels id h]
  · simp only [UpdateYear, Table.update_of_absent db.years id _ h]
  · simp only [DeleteYear, Table.delete_of_absent db.years id h]
  · simp only [UpdateSubject, Table.update_of_absent db.subjects id _ h]
  · simp only [DeleteSubject, Table.delete_of_absent db.subjects id h]
  · simp only [UpdateCategory, Table.update_of_absent db.categories id _ h]
  · simp only [DeleteCategory, Table.delete_of_absent db.categories id h]

/-- C9 at `sampleDB` and the key 77, which no table has. -/
theorem C9_update_delete_absent_witness :
    UpdateLevel sampleDB 77 (.ok ⟨0, "X", "Y", "blue", 0⟩)
      = (sampleDB, .json 200 (.message "Level updated successfully")) ∧
    DeleteLevel sampleDB 77 = (sampleDB, .json 200 (.message "Level deleted successfully")) ∧
    UpdateYear sampleDB 77 (.ok ⟨0, 1, "X", "Y", 0, ""⟩)
      = (sampleDB, .json 200 (.message "Year updated successfully")) ∧
    DeleteYear sampleDB 77 = (sampleDB, .json 200 (.message "Year deleted successfully")) ∧
    UpdateSubject sampleDB 77 (.ok ⟨0, 1, "X", "Y", "Z", 0, ""⟩)
      = (sampleDB, .json 200 (.message "Subject updated successfully")) ∧
    DeleteSubject sampleDB 77
      = (sampleDB, .json 200 (.message "Subject deleted successfully")) ∧
    UpdateCategory sampleDB 77 (.ok ⟨0, "X", "Y", 0⟩)
      = (sampleDB, .json 200 (.message "Category updated successfully")) ∧
    DeleteCategory sampleDB 77
      = (sampleDB, .json 200 (.message "Category deleted successfully")) :=
  have h := C9_update_delete_absent sampleDB 77
  ⟨(h.1 (by decide)).1 _, (h.1 (by decide)).2,
   (h.2.1 (by decide)).1 _, (h.2.1 (by decide)).2,
   (h.2.2.1 (by decide)).1 _, (h.2.2.1 (by decide)).2,
   (h.2.2.2 (by decide)).1 _, (h.2.2.2 (by decide)).2⟩

/-- C10: deletes do not cascade.  `DeleteLevel` keeps exactly the rows of
`levels` with another key and leaves `years`, `subjects`, `categories` and
`documents` as they are, so every year stored under the deleted key is still
stored; likewise `DeleteYear` leaves `subjects` (and every other table but
`years`), and `DeleteSubject` and `DeleteCategory` leave `documents` (and
every other table but their own) as they are. -/
theorem C10_delete_no_cascade (db : DB) (id : Int) :
    ((DeleteLevel db id).1.levels.rows = db.levels.rows.filter (fun r => decide (r.ID ≠ id)) ∧
      (DeleteLevel db id).1.years = db.years ∧
      (DeleteLevel db id).1.subjects = db.subjects ∧
      (DeleteLevel db id).1.categories = db.categories ∧
      (DeleteLevel db id).1.documents = db.documents ∧
      (∀ y ∈ db.years.rows, y.level_id = id → y ∈ (DeleteLevel db id).1.years.rows)) ∧
    ((DeleteYear db id).1.years.rows = db.years.rows.filter (fun r => decide (r.id ≠ id)) ∧
      (DeleteYear db id).1.levels = db.levels ∧
      (DeleteYear db id).1.subjects = db.subjects ∧
      (DeleteYear db id).1.categories = db.categories ∧
      (DeleteYear db id).1.documents = db.documents ∧
      (∀ s ∈ db.subjects.rows, s.year_id = id → s ∈ (DeleteYear db id).1.subjects.rows)) ∧
    ((DeleteSubject db id).1.subjects.rows
        = db.subjects.rows.filter (fun r => decide (r.id ≠ id)) ∧
      (DeleteSubject db id).1.levels = db.levels ∧
      (DeleteSubject db id).1.years = db.years ∧
      (DeleteSubject db id).1.categories = db.categories ∧
      (DeleteSubject db id).1.documents = db.documents ∧
      (∀ d ∈ db.documents.rows, d.subject_id = id →
        d ∈ (DeleteSubject db id).1.documents.rows)) ∧
    ((DeleteCategory db id).1.categories.rows
        = db.categories.rows.filter (fun r => decide (r.ID ≠ id)) ∧
      (DeleteCategory db id).1.levels = db.levels ∧
      (DeleteCategory db id).1.years = db.years ∧
      (DeleteCategory db id).1.subjects = db.subjects ∧
      (DeleteCategory db id).1.documents = db.documents ∧
      (∀ d ∈ db.documents.rows, d.category_id = id →
        d ∈ (DeleteCategory db id).1.documents.rows)) :=
  ⟨⟨rfl, rfl, rfl, rfl, rfl, fun _ hy _ => hy⟩, ⟨rfl, rfl, rfl, rfl, rfl, fun _ hs _ => hs⟩,
   ⟨rfl, rfl, rfl, rfl, rfl, fun _ hd _ => hd⟩, ⟨rfl, rfl, rfl, rfl, rfl, fun _ hd _ => hd⟩⟩

/-- C10 at `sampleDB`: after level 1 is deleted its two years are stored, and
`GetYears` no longer lists them. -/
theorem C10_delete_no_cascade_witness :
    (DeleteLevel sampleDB 1).1.levels.rows.map (fun l => l.ID) = [2] ∧
    (DeleteLevel sampleDB 1).1.years.rows.map (fun y => (y.id, y.level_id))
      = [(1, 1), (2, 2), (3, 1), (4, 9)] ∧
    GetYears (DeleteLevel sampleDB 1).1 1 = .json 200 (.years []) := by
  have h := (C10_delete_no_cascade sampleDB 1).1
  refine ⟨?_, ?_, ?_⟩
  · rw [h.1]; decide
  · rw [h.2.1]; decide
  · decide

/-- A property of the database kept by each of the four insert statements of
`insertDefaultData` is kept by `insertDefaultData`. -/
theorem insertDefaultData_preserves (P : DB → Prop)
    (hL : ∀ db now a b c, P db → P (insertLevel db now a b c).2)
    (hY : ∀ db now l a b, P db → P (insertYear db now l a b).2)
    (hC : ∀ db now a b, P db → P (insertCategory db now a b).2)
    (hS : ∀ db now y a b c, P db → P (insertSubject db now y a b c).2)
    (db : DB) (clock : Nat → Time) (h : P db) : P (insertDefaultData db clock).1 := by
  unfold insertDefaultData
  split
  · exact h
  · refine execAll_preserves P clock _ ?_ _ ?_
    · intro s hs now d hd
      rcases List.mem_map.1 hs with ⟨x, _, rfl⟩
      exact hS _ _ _ _ _ _ hd
    refine execAll_preserves P clock _ ?_ _ ?_
    · intro s hs now d hd
      rcases List.mem_map.1 hs with ⟨x, _, rfl⟩
      exact hS _ _ _ _ _ _ hd
    refine execAll_preserves P clock _ ?_ _ ?_
    · intro s hs now d hd
      rcases List.mem_map.1 hs with ⟨x, _, rfl⟩
      exact hS _ _ _ _ _ _ hd
    refine execAll_preserves P clock _ ?_ _ ?_
    · intro s hs now d hd
      rcases List.mem_flatMap.1 hs with ⟨y, _, hs⟩
      rcases List.mem_map.1 hs with ⟨x, _, rfl⟩
      exact hS _ _ _ _ _ _ hd
    refine execAll_preserves P clock _ ?_ _ ?_
    · intro s hs now d hd
      rcases List.mem_flatMap.1 hs with ⟨y, _, hs⟩
      rcases List.mem_map.1 hs with ⟨x, _, rfl⟩
      exact hS _ _ _ _ _ _ hd
    refine execAll_preserves P clock _ ?_ _ ?_
    · intro s hs now d hd
      rcases List.mem_map.1 hs with ⟨x, _, rfl⟩
      exact hC _ _ _ _ hd
    refine execAll_preserves P clock _ ?_ _ ?_
    · intro s hs now d hd
      rcases List.mem_map.1 hs with ⟨x, _, rfl⟩
      exact hY _ _ _ _ _ hd
    refine execAll_preserves P clock _ ?_ _ ?_
    · intro s hs now d hd
      rcases List.mem_map.1 hs with ⟨x, _, rfl⟩
      exact hY _ _ _ _ _ hd
    refine execAll_preserves P clock _ ?_ _ ?_
    · intro s hs now d hd
      rcases List.mem_map.1 hs with ⟨x, _, rfl⟩
      exact hY _ _ _ _ _ hd
    refine execAll_preserves P clock _ ?_ _ h
    intro s hs now d hd
    rcases List.mem_map.1 hs with ⟨x, _, rfl⟩
    exact hL _ _ _ _ _ hd

/-- The table `documents` is not touched by `insertDefaultData`. -/
theorem insertDefaultData_documents (db : DB) (clock : Nat → Time) :
    (insertDefaultData db clock).1.documents = db.documents :=
  insertDefaultData_preserves (fun d => d.documents = db.documents)
    (fun _ _ _ _ _ h => h) (fun _ _ _ _ _ h => h) (fun _ _ _ _ h => h)
    (fun _ _ _ _ _ _ h => h) db clock rfl

/-- What a request can do to the table `documents`: nothing, the counter
update of `DownloadDocument`, a delete by key, or the insert of a row with
`downloads` 0. -/
theorem handle_documents (w : World) (req : Request) :
    (handle w req).1.db.documents = w.db.documents ∨
    (∃ id, req = .DownloadDocument id ∧
      (handle w req).1.db.documents
        = w.db.documents.update id (fun d => { d with downloads := d.downloads + 1 })) ∨
    (∃ id, (handle w req).1.db.documents = w.db.documents.delete id) ∨
    (∃ mk : Int → DocumentRow, (∀ v, (mk v).id = v ∧ (mk v).downloads = 0) ∧
      (handle w req).1.db.documents = (w.db.documents.insert mk).2) := by
  cases req with
  | DownloadDocument docID =>
    cases hq : w.db.documents.queryRow docID with
    | none => left; simp [handle, onDB, DownloadDocument, hq]
    | some d => right; left; exact ⟨docID, rfl, by simp [handle, onDB, DownloadDocument, hq]⟩
  | UploadDocument env file subjectID categoryID title =>
    cases file with
    | none => left; simp [handle, UploadDocument]
    | some f =>
      cases hs : (w.fs.mkdirAll env.mkdirOk).saveUploadedFile env.saveOk
          (filepathJoin "uploads" (storedFileName env.unixNow f.Filename)) f.content with
      | none => left; simp [handle, UploadDocument, hs]
      | some fs2 =>
        right; right; right
        exact ⟨fun id =>
          { id := id, subject_id := subjectID, category_id := categoryID, title := title,
            file_name := f.Filename,
            file_path := filepathJoin "uploads" (storedFileName env.unixNow f.Filename),
            file_size := f.Size, downloads := 0, created_at := env.now },
          fun v => ⟨rfl, rfl⟩, by simp [handle, UploadDocument, hs, insertDocument]⟩
  | DeleteDocument removeOk docID => right; right; left; exact ⟨docID, rfl⟩
  | CreateLevel now body => left; cases body <;> rfl
  | UpdateLevel id body => left; cases body <;> rfl
  | CreateYear now body => left; cases body <;> rfl
  | UpdateYear id body => left; cases body <;> rfl
  | CreateSubject now body => left; cases body <;> rfl
  | UpdateSubject id body => left; cases body <;> rfl
  | CreateCategory now body => left; cases body <;> rfl
  | UpdateCategory id body => left; cases body <;> rfl
  | _ => left; rfl

/-- C8: in a state whose `documents` keys are unique and whose counters are
all at least 0, after any request every counter is at least 0, and a row
stored afterwards under the key of a row stored before has a counter at least
as high; it is that very row, field for field, unless the request is
`DownloadDocument` for its key, when it is that row with `downloads` one
higher.  The keys stay unique.  `insertDefaultData` leaves the table
`documents` as it is. -/
theorem C8_downloads_monotone (w : World) (hk : w.db.documents.KeysUnique)
    (hnn : ∀ r ∈ w.db.documents.rows, 0 ≤ r.downloads) :
    (∀ req : Request,
      (∀ r2 ∈ (handle w req).1.db.documents.rows, 0 ≤ r2.downloads) ∧
      (∀ r ∈ w.db.documents.rows, ∀ r2 ∈ (handle w req).1.db.documents.rows, r2.id = r.id →
        r.downloads ≤ r2.downloads ∧
        (r2 = r ∨
          (req = .DownloadDocument r.id ∧ r2 = { r with downloads := r.downloads + 1 }))) ∧
      (handle w req).1.db.documents.KeysUnique) ∧
    (∀ clock : Nat → Time, (seed w clock).db.documents = w.db.documents) := by
  refine ⟨fun req => ?_, fun clock => insertDefaultData_documents w.db clock⟩
  rcases handle_documents w req with h | ⟨id, hreq, h⟩ | ⟨id, h⟩ | ⟨mk, hmk, h⟩
  · rw [h]
    refine ⟨hnn, fun r hr r2 hr2 hid => ?_, hk⟩
    have := hk.eq_of_rowid_eq hr2 hr hid
    subst this
    exact ⟨le_refl _, Or.inl rfl⟩
  · rw [h]
    refine ⟨fun r2 hr2 => ?_, fun r hr r2 hr2 hid => ?_, ?_⟩
    · rcases List.mem_map.1 hr2 with ⟨r0, hr0, rfl⟩
      have := hnn r0 hr0
      split
      · show 0 ≤ r0.downloads + 1
        omega
      · exact this
    · rcases List.mem_map.1 hr2 with ⟨r0, hr0, rfl⟩
      have hid0 : r0.id = r.id := by
        split at hid
        · exact hid
        · exact hid
      have := hk.eq_of_rowid_eq hr0 hr hid0
      subst this
      by_cases hc : rowid r0 = id
      · rw [if_pos hc]
        refine ⟨?_, Or.inr ⟨?_, rfl⟩⟩
        · show r0.downloads ≤ r0.downloads + 1
          omega
        · rw [hreq]
          have : id = r0.id := hc.symm
          rw [this]
      · rw [if_neg hc]
        exact ⟨le_refl _, Or.inl rfl⟩
    · unfold Table.KeysUnique Table.update
      have hm : (w.db.documents.rows.map (fun r =>
            if rowid r = id then { r with downloads := r.downloads + 1 } else r)).map rowid
          = w.db.documents.rows.map rowid := by
        rw [List.map_map]
        apply List.map_congr_left
        intro r _
        simp only [Function.comp]
        split <;> rfl
      rw [hm]
      exact hk
  · rw [h]
    have hsub : ∀ r2 ∈ (w.db.documents.delete id).rows, r2 ∈ w.db.documents.rows :=
      fun r2 hr2 => (List.mem_filter.1 hr2).1
    refine ⟨fun r2 hr2 => hnn r2 (hsub r2 hr2), fun r hr r2 hr2 hid => ?_, ?_⟩
    · have := hk.eq_of_rowid_eq (hsub r2 hr2) hr hid
      subst this
      exact ⟨le_refl _, Or.inl rfl⟩
    · exact hk.sublist ((List.filter_sublist _).map _)
  · rw [h]
    have hfresh : ∀ r ∈ w.db.documents.rows, r.id < w.db.documents.newRowid :=
      fun r hr => Table.rowid_lt_newRowid w.db.documents r hr
    refine ⟨fun r2 hr2 => ?_, fun r hr r2 hr2 hid => ?_, ?_⟩
    · rcases List.mem_append.1 hr2 with hold | hnew
      · exact hnn r2 hold
      · rw [List.mem_singleton.1 hnew, (hmk _).2]
    · rcases List.mem_append.1 hr2 with hold | hnew
      · have := hk.eq_of_rowid_eq hold hr hid
        subst this
        exact ⟨le_refl _, Or.inl rfl⟩
      · exfalso
        rw [List.mem_singleton.1 hnew, (hmk _).1] at hid
        have := hfresh r hr
        omega
    · unfold Table.KeysUnique Table.insert
      simp only [List.map_append, List.map_cons, List.map_nil]
      rw [List.nodup_append]
      refine ⟨hk, List.nodup_singleton _, ?_⟩
      intro a ha hb
      rcases List.mem_map.1 ha with ⟨r, hr, rfl⟩
      have hlt := hfresh r hr
      have heq : rowid r = (mk w.db.documents.newRowid).id := List.mem_singleton.1 hb
      rw [(hmk _).1] at heq
      simp only [rowid_documentRow] at heq
      omega

/-- C8 at `sampleWorld` and a download of document 2, whose counter goes from
7 to 8. -/
theorem C8_downloads_monotone_witness :
    (7 : Int) ≤ 8 ∧
    ((⟨2, 5, 1, "Cours 1", "b.pdf", "uploads/200_b.pdf", 3, 8, 200⟩ : DocumentRow)
        = ⟨2, 5, 1, "Cours 1", "b.pdf", "uploads/200_b.pdf", 3, 7, 200⟩ ∨
      (Request.DownloadDocument 2 = Request.DownloadDocument 2 ∧
        (⟨2, 5, 1, "Cours 1", "b.pdf", "uploads/200_b.pdf", 3, 8, 200⟩ : DocumentRow)
          = ⟨2, 5, 1, "Cours 1", "b.pdf", "uploads/200_b.pdf", 3, 7 + 1, 200⟩)) :=
  ((C8_downloads_monotone sampleWorld (by decide) (by decide)).1 (.DownloadDocument 2)).2.1
    ⟨2, 5, 1, "Cours 1", "b.pdf", "uploads/200_b.pdf", 3, 7, 200⟩ (by decide)
    ⟨2, 5, 1, "Cours 1", "b.pdf", "uploads/200_b.pdf", 3, 8, 200⟩ (by decide) rfl

/-- An insert keeps the keys unique: the new key is above every stored one. -/
theorem Table.KeysUnique.insert {t : Table α} (h : t.KeysUnique) (mk : Int → α)
    (hmk : ∀ v, rowid (mk v) = v) : (t.insert mk).2.KeysUnique := by
  unfold Table.KeysUnique Table.insert
  simp only [List.map_append, List.map_cons, List.map_nil]
  rw [List.nodup_append]
  refine ⟨h, List.nodup_singleton _, ?_⟩
  intro a ha hb
  rcases List.mem_map.1 ha with ⟨r, hr, rfl⟩
  have hlt := Table.rowid_lt_newRowid t r hr
  have heq : rowid r = rowid (mk t.newRowid) := List.mem_singleton.1 hb
  rw [hmk] at heq
  omega

/-- An update that leaves the key column alone keeps the keys unique. -/
theorem Table.KeysUnique.update {t : Table α} (h : t.KeysUnique) (id : Int) (set : α → α)
    (hset : ∀ r, rowid (set r) = rowid r) : (t.update id set).KeysUnique := by
  unfold Table.KeysUnique Table.update
  have hm : (t.rows.map (fun r => if rowid r = id then set r else r)).map rowid
      = t.rows.map rowid := by
    rw [List.map_map]
    apply List.map_congr_left
    intro r _
    simp only [Function.comp]
    split
    · exact hset r
    · rfl
  rw [hm]
  exact h

/-- A delete keeps the keys unique. -/
theorem Table.KeysUnique.delete {t : Table α} (h : t.KeysUnique) (id : Int) :
    (t.delete id).KeysUnique :=
  List.Nodup.sublist ((List.filter_sublist _).map _) h

/-- The empty database satisfies the key constraints. -/
theorem DB.empty_keysUnique : DB.empty.KeysUnique := by
  simp [DB.KeysUnique, Table.KeysUnique, DB.empty]

/-- The insert into `levels` keeps the five key constraints. -/
theorem insertLevel_keysUnique (db : DB) (now : Time) (a b c : String) (h : db.KeysUnique) :
    (insertLevel db now a b c).2.KeysUnique :=
  ⟨Table.KeysUnique.insert h.1
      (fun id => { ID := id, Name := a, NameAr := b, Color := c, CreatedAt := now })
      (fun _ => rfl), h.2⟩

/-- The insert into `years` keeps the five key constraints. -/
theorem insertYear_keysUnique (db : DB) (now : Time) (l : Int) (a b : String)
    (h : db.KeysUnique) : (insertYear db now l a b).2.KeysUnique :=
  ⟨h.1, Table.KeysUnique.insert h.2.1
      (fun id => { id := id, level_id := l, name := a, name_ar := b, created_at := now })
      (fun _ => rfl), h.2.2⟩

/-- The insert into `subjects` keeps the five key constraints. -/
theorem insertSubject_keysUnique (db : DB) (now : Time) (y : Int) (a b c : String)
    (h : db.KeysUnique) : (insertSubject db now y a b c).2.KeysUnique :=
  ⟨h.1, h.2.1, Table.KeysUnique.insert h.2.2.1
      (fun id =>
        { id := id, year_id := y, name := a, name_ar := b, icon := c, created_at := now })
      (fun _ => rfl), h.2.2.2⟩

/-- The insert into `categories` keeps the five key constraints. -/
theorem insertCategory_keysUnique (db : DB) (now : Time) (a b : String) (h : db.KeysUnique) :
    (insertCategory db now a b).2.KeysUnique :=
  ⟨h.1, h.2.1, h.2.2.1, Table.KeysUnique.insert h.2.2.2.1
      (fun id => { ID := id, Name := a, NameAr := b, CreatedAt := now })
      (fun _ => rfl), h.2.2.2.2⟩

/-- The insert into `documents` keeps the five key constraints. -/
theorem insertDocument_keysUnique (db : DB) (now : Time) (s c : Int) (t n p : String)
    (size : Int) (h : db.KeysUnique) : (insertDocument db now s c t n p size).2.KeysUnique :=
  ⟨h.1, h.2.1, h.2.2.1, h.2.2.2.1, Table.KeysUnique.insert h.2.2.2.2
      (fun id =>
        { id := id, subject_id := s, category_id := c, title := t, file_name := n,
          file_path := p, file_size := size, downloads := 0, created_at := now })
      (fun _ => rfl)⟩

/-- Every request keeps the five key constraints. -/
theorem handle_keysUnique (w : World) (req : Request) (h : w.db.KeysUnique) :
    (handle w req).1.db.KeysUnique := by
  have h0 := h
  obtain ⟨hl, hy, hs, hc, hd⟩ := h
  cases req with
  | DownloadDocument docID =>
    cases hq : w.db.documents.queryRow docID with
    | none => simpa [handle, onDB, DownloadDocument, hq] using h0
    | some d =>
      simp only [handle, onDB, DownloadDocument, hq]
      exact ⟨hl, hy, hs, hc, hd.update _ _ (fun _ => rfl)⟩
  | UploadDocument env file subjectID categoryID title =>
    cases file with
    | none => exact h0
    | some f =>
      cases hsv : (w.fs.mkdirAll env.mkdirOk).saveUploadedFile env.saveOk
          (filepathJoin "uploads" (storedFileName env.unixNow f.Filename)) f.content with
      | none => simpa [handle, UploadDocument, hsv] using h0
      | some fs2 =>
        simp only [handle, UploadDocument, hsv]
        exact insertDocument_keysUnique _ _ _ _ _ _ _ _ h0
  | DeleteDocument removeOk docID => exact ⟨hl, hy, hs, hc, hd.delete _⟩
  | CreateLevel now body =>
    cases body with
    | error e => exact h0
    | ok b => exact insertLevel_keysUnique _ _ _ _ _ h0
  | UpdateLevel id body =>
    cases body with
    | error e => exact h0
    | ok b => exact ⟨hl.update _ _ (fun _ => rfl), hy, hs, hc, hd⟩
  | DeleteLevel id => exact ⟨hl.delete _, hy, hs, hc, hd⟩
  | CreateYear now body =>
    cases body with
    | error e => exact h0
    | ok b => exact insertYear_keysUnique _ _ _ _ _ h0
  | UpdateYear id body =>
    cases body with
    | error e => exact h0
    | ok b => exact ⟨hl, hy.update _ _ (fun _ => rfl), hs, hc, hd⟩
  | DeleteYear id => exact ⟨hl, hy.delete _, hs, hc, hd⟩
  | CreateSubject now body =>
    cases body with
    | error e => exact h0
    | ok b => exact insertSubject_keysUnique _ _ _ _ _ _ h0
  | UpdateSubject id body =>
    cases body with
    | error e => exact h0
    | ok b => exact ⟨hl, hy, hs.update _ _ (fun _ => rfl), hc, hd⟩
  | DeleteSubject id => exact ⟨hl, hy, hs.delete _, hc, hd⟩
  | CreateCategory now body =>
    cases body with
    | error e => exact h0
    | ok b => exact insertCategory_keysUnique _ _ _ _ h0
  | UpdateCategory id body =>
    cases body with
    | error e => exact h0
    | ok b => exact ⟨hl, hy, hs, hc.update _ _ (fun _ => rfl), hd⟩
  | DeleteCategory id => exact ⟨hl, hy, hs, hc.delete _, hd⟩
  | _ => exact h0

/-- Seeding keeps the five key constraints. -/
theorem seed_keysUnique (w : World) (clock : Nat → Time) (h : w.db.KeysUnique) :
    (seed w clock).db.KeysUnique :=
  insertDefaultData_preserves DB.KeysUnique
    (fun db now a b c h => insertLevel_keysUnique db now a b c h)
    (fun db now l a b h => insertYear_keysUnique db now l a b h)
    (fun db now a b h => insertCategory_keysUnique db now a b h)
    (fun db now y a b c h => insertSubject_keysUnique db now y a b c h)
    w.db clock h

/-- The rows of a join: the pairs of a row of each table that satisfy the
condition. -/
theorem mem_innerJoin {β γ : Type} (a : List β) (b : List γ) (cond : β → γ → Bool)
    (p : β × γ) : p ∈ innerJoin a b cond ↔ p.1 ∈ a ∧ p.2 ∈ b ∧ cond p.1 p.2 = true := by
  unfold innerJoin
  rw [List.mem_flatMap]
  constructor
  · rintro ⟨x, hx, hp⟩
    rcases List.mem_map.1 hp with ⟨y, hy, rfl⟩
    exact ⟨hx, (List.mem_filter.1 hy).1, (List.mem_filter.1 hy).2⟩
  · rintro ⟨h1, h2, h3⟩
    exact ⟨p.1, h1, List.mem_map.2 ⟨p.2, List.mem_filter.2 ⟨h2, h3⟩, rfl⟩⟩

/-- A row appended to the left table that matches no row of the right table
adds nothing to the join. -/
theorem innerJoin_append_unmatched {β γ : Type} (a : List β) (x : β) (b : List γ)
    (cond : β → γ → Bool) (h : ∀ y ∈ b, cond x y = false) :
    innerJoin (a ++ [x]) b cond = innerJoin a b cond := by
  have hnil : b.filter (fun y => cond x y) = [] := by
    rw [List.filter_eq_nil_iff]
    intro y hy
    simp [h y hy]
  simp [innerJoin, List.flatMap_append, hnil]

/-- C11: `CreateYear` with a `level_id` that no stored level has answers 201
and appends the row under a new key, so `total_years` of `GetStats` grows by
one; `GetYears` for that `level_id` is then empty, and `GetAllYears` answers
what it answered before, with no row under the new key.  The same holds for
`CreateSubject` with a `year_id` that no stored year has, `GetSubjects` and
`GetAllSubjects`. -/
theorem C11_create_orphan (db : DB) (now : Time) :
    (∀ year : Year, (∀ l ∈ db.levels.rows, l.ID ≠ year.LevelID) →
      ∃ row : YearRow,
        (CreateYear db now (.ok year)).2 = .json 201 (.year { year with ID := row.id }) ∧
        (CreateYear db now (.ok year)).1.years.rows = db.years.rows ++ [row] ∧
        row.level_id = year.LevelID ∧
        (∀ r ∈ db.years.rows, r.id ≠ row.id) ∧
        (∃ before after : Stats,
          GetStats db = .json 200 (.stats before) ∧
          GetStats (CreateYear db now (.ok year)).1 = .json 200 (.stats after) ∧
          after.TotalYears = before.TotalYears + 1) ∧
        GetYears (CreateYear db now (.ok year)).1 year.LevelID = .json 200 (.years []) ∧
        GetAllYears (CreateYear db now (.ok year)).1 = GetAllYears db ∧
        (∀ ys, GetAllYears (CreateYear db now (.ok year)).1 = .json 200 (.years ys) →
          ∀ y ∈ ys, y.ID ≠ row.id)) ∧
    (∀ subject : Subject, (∀ y ∈ db.years.rows, y.id ≠ subject.YearID) →
      ∃ row : SubjectRow,
        (CreateSubject db now (.ok subject)).2
          = .json 201 (.subject { subject with ID := row.id }) ∧
        (CreateSubject db now (.ok subject)).1.subjects.rows = db.subjects.rows ++ [row] ∧
        row.year_id = subject.YearID ∧
        (∀ r ∈ db.subjects.rows, r.id ≠ row.id) ∧
        (∃ before after : Stats,
          GetStats db = .json 200 (.stats before) ∧
          GetStats (CreateSubject db now (.ok subject)).1 = .json 200 (.stats after) ∧
          after.TotalSubjects = before.TotalSubjects + 1) ∧
        GetSubjects (CreateSubject db now (.ok subject)).1 subject.YearID
          = .json 200 (.subjects []) ∧
        GetAllSubjects (CreateSubject db now (.ok subject)).1 = GetAllSubjects db ∧
        (∀ ss, GetAllSubjects (CreateSubject db now (.ok subject)).1
            = .json 200 (.subjects ss) → ∀ s ∈ ss, s.ID ≠ row.id)) := by
  constructor
  · intro year hno
    have hfresh : ∀ r ∈ db.years.rows, r.id ≠ db.years.newRowid := by
      intro r hr
      have := Table.rowid_lt_newRowid db.years r hr
      simp only [rowid_yearRow] at this
      omega
    have hjoin : innerJoin (db.years.rows ++ [(⟨db.years.newRowid, year.LevelID, year.Name,
          year.NameAr, now⟩ : YearRow)]) db.levels.rows (fun y l => decide (y.level_id = l.ID))
        = innerJoin db.years.rows db.levels.rows (fun y l => decide (y.level_id = l.ID)) :=
      innerJoin_append_unmatched _ _ _ _ (fun l hl => by
        have := hno l hl
        simpa using fun e : year.LevelID = l.ID => this e.symm)
    have hall : GetAllYears (CreateYear db now (.ok year)).1 = GetAllYears db := by
      simp only [GetAllYears, CreateYear, insertYear, Table.insert, hjoin]
    refine ⟨⟨db.years.newRowid, year.LevelID, year.Name, year.NameAr, now⟩, rfl, rfl, rfl,
      hfresh, ⟨_, _, rfl, rfl, ?_⟩, ?_, hall, ?_⟩
    · simp [CreateYear, insertYear, Table.insert, Table.count]
    · have hsel : (innerJoin db.years.rows db.levels.rows
          (fun y l => decide (y.level_id = l.ID))).filter
          (fun p => decide (p.1.level_id = year.LevelID)) = [] := by
        rw [List.filter_eq_nil_iff]
        intro p hp
        have hm := (mem_innerJoin _ _ _ p).1 hp
        have h1 : p.1.level_id = p.2.ID := of_decide_eq_true hm.2.2
        have h2 := hno p.2 hm.2.1
        simp only [decide_eq_true_eq]
        intro e
        exact h2 (by rw [← h1, e])
      simp only [GetYears, CreateYear, insertYear, Table.insert, hjoin, hsel]
      rfl
    · intro ys hys y hy
      rw [hall] at hys
      simp only [GetAllYears, Response.json.injEq, Payload.years.injEq, true_and] at hys
      subst hys
      rcases List.mem_map.1 hy with ⟨p, hp, rfl⟩
      have hp2 := (List.perm_insertionSort _ _).mem_iff.1 hp
      exact hfresh p.1 ((mem_innerJoin _ _ _ p).1 hp2).1
  · intro subject hno
    have hfresh : ∀ r ∈ db.subjects.rows, r.id ≠ db.subjects.newRowid := by
      intro r hr
      have := Table.rowid_lt_newRowid db.subjects r hr
      simp only [rowid_subjectRow] at this
      omega
    have hjoin : innerJoin (db.subjects.rows ++ [(⟨db.subjects.newRowid, subject.YearID,
          subject.Name, subject.NameAr, subject.Icon, now⟩ : SubjectRow)]) db.years.rows
          (fun s y => decide (s.year_id = y.id))
        = innerJoin db.subjects.rows db.years.rows (fun s y => decide (s.year_id = y.id)) :=
      innerJoin_append_unmatched _ _ _ _ (fun y hy => by
        have := hno y hy
        simpa using fun e : subject.YearID = y.id => this e.symm)
    have hall : GetAllSubjects (CreateSubject db now (.ok subject)).1 = GetAllSubjects db := by
      simp only [GetAllSubjects, CreateSubject, insertSubject, Table.insert, hjoin]
    refine ⟨⟨db.subjects.newRowid, subject.YearID, subject.Name, subject.NameAr, subject.Icon,
      now⟩, rfl, rfl, rfl, hfresh, ⟨_, _, rfl, rfl, ?_⟩, ?_, hall, ?_⟩
    · simp [CreateSubject, insertSubject, Table.insert, Table.count]
    · have hsel : (innerJoin db.subjects.rows db.years.rows
          (fun s y => decide (s.year_id = y.id))).filter
          (fun p => decide (p.1.year_id = subject.YearID)) = [] := by
        rw [List.filter_eq_nil_iff]
        intro p hp
        have hm := (mem_innerJoin _ _ _ p).1 hp
        have h1 : p.1.year_id = p.2.id := of_decide_eq_true hm.2.2
        have h2 := hno p.2 hm.2.1
        simp only [decide_eq_true_eq]
        intro e
        exact h2 (by rw [← h1, e])
      simp only [GetSubjects, CreateSubject, insertSubject, Table.insert, hjoin, hsel]
      rfl
    · intro ss hss s hs
      rw [hall] at hss
      simp only [GetAllSubjects, Response.json.injEq, Payload.subjects.injEq, true_and] at hss
      subst hss
      rcases List.mem_map.1 hs with ⟨p, hp, rfl⟩
      have hp2 := (List.perm_insertionSort _ _).mem_iff.1 hp
      exact hfresh p.1 ((mem_innerJoin _ _ _ p).1 hp2).1

/-- C11 at `sampleDB`: a year under the level key 77, which no level has. -/
theorem C11_create_orphan_witness :
    ∃ row : YearRow,
      (CreateYear sampleDB 50 (.ok ⟨0, 77, "Année X", "س", 0, ""⟩)).2
        = .json 201 (.year { (⟨0, 77, "Année X", "س", 0, ""⟩ : Year) with ID := row.id }) ∧
      (CreateYear sampleDB 50 (.ok ⟨0, 77, "Année X", "س", 0, ""⟩)).1.years.rows
        = sampleDB.years.rows ++ [row] ∧
      row.level_id = 77 ∧
      GetYears (CreateYear sampleDB 50 (.ok ⟨0, 77, "Année X", "س", 0, ""⟩)).1 77
        = .json 200 (.years []) ∧
      GetAllYears (CreateYear sampleDB 50 (.ok ⟨0, 77, "Année X", "س", 0, ""⟩)).1
        = GetAllYears sampleDB := by
  obtain ⟨row, h1, h2, h3, _, _, h6, h7, _⟩ :=
    (C11_create_orphan sampleDB 50).1 ⟨0, 77, "Année X", "س", 0, ""⟩ (by decide)
  exact ⟨row, h1, h2, h3, h6, h7⟩

/-- C12: when the directory `./uploads` is absent and cannot be created, or
the bytes cannot be written, `UploadDocument` answers 500 with "Failed to
save file"; the database, and so the table `documents`, is the one before,
and no file is written. -/
theorem C12_upload_storage_failure (w : World) (env : UploadEnv) (f : FileHeader)
    (subjectID categoryID : Int) (title : String)
    (hfail : (w.fs.uploadsDir = false ∧ env.mkdirOk = false) ∨ env.saveOk = false) :
    (UploadDocument w env (some f) subjectID categoryID title).2
      = .json 500 (.error "Failed to save file") ∧
    (UploadDocument w env (some f) subjectID categoryID title).1.db = w.db ∧
    (UploadDocument w env (some f) subjectID categoryID title).1.db.documents
      = w.db.documents ∧
    (UploadDocument w env (some f) subjectID categoryID title).1.fs.files = w.fs.files := by
  have hs : (w.fs.mkdirAll env.mkdirOk).saveUploadedFile env.saveOk
      (filepathJoin "uploads" (storedFileName env.unixNow f.Filename)) f.content = none := by
    unfold FileSystem.saveUploadedFile FileSystem.mkdirAll
    rcases hfail with ⟨h1, h2⟩ | h
    · simp [h1, h2]
    · simp [h]
  refine ⟨?_, ?_, ?_, ?_⟩
  · simp only [UploadDocument, hs]
  · simp only [UploadDocument, hs]
  · simp only [UploadDocument, hs]
  · simp only [UploadDocument, hs]
    rfl

/-- C12 at `sampleWorld`, once without the directory and once with a failing
write. -/
theorem C12_upload_storage_failure_witness :
    (UploadDocument { sampleWorld with fs := ⟨false, []⟩ } ⟨false, 1700000000, true, 300⟩
        (some ⟨"t.pdf", [1, 2]⟩) 5 2 "Test").2 = .json 500 (.error "Failed to save file") ∧
    (UploadDocument sampleWorld ⟨true, 1700000000, false, 300⟩
        (some ⟨"t.pdf", [1, 2]⟩) 5 2 "Test").1.db.documents = sampleWorld.db.documents :=
  ⟨(C12_upload_storage_failure { sampleWorld with fs := ⟨false, []⟩ }
      ⟨false, 1700000000, true, 300⟩ ⟨"t.pdf", [1, 2]⟩ 5 2 "Test" (Or.inl ⟨rfl, rfl⟩)).1,
   (C12_upload_storage_failure sampleWorld ⟨true, 1700000000, false, 300⟩
      ⟨"t.pdf", [1, 2]⟩ 5 2 "Test" (Or.inr rfl)).2.2.1⟩

/-- After a removal that the system allows, no file is at the path. -/
theorem FileSystem.read_remove (fs : FileSystem) (path : String) :
    (fs.remove true path).read path = none := by
  unfold FileSystem.read FileSystem.remove
  have hnone : (fs.files.filter (fun f => decide (f.1 ≠ path))).find?
      (fun f => decide (f.1 = path)) = none := by
    rw [List.find?_eq_none]
    intro x hx
    have := (List.mem_filter.1 hx).2
    simpa using this
  simp [hnone]

/-- C13: `DeleteDocument` answers 200 with its success message whatever the
key, whether or not a row (and so a path) is found, and whether or not the
file can be removed; afterwards no row of `documents` has the key; and when a
row was found, its path is not empty and the removal goes through, no file is
at that path afterwards. -/
theorem C13_DeleteDocument (w : World) (removeOk : Bool) (docID : Int) :
    (DeleteDocument w removeOk docID).2
      = .json 200 (.message "Document deleted successfully") ∧
    (∀ r ∈ (DeleteDocument w removeOk docID).1.db.documents.rows, r.id ≠ docID) ∧
    (∀ d, w.db.documents.queryRow docID = some d → d.file_path ≠ "" → removeOk = true →
      (DeleteDocument w removeOk docID).1.fs.read d.file_path = none) := by
  refine ⟨rfl, fun r hr => Table.rowid_ne_of_mem_delete w.db.documents docID r hr, ?_⟩
  intro d hq hp hok
  subst hok
  simp only [DeleteDocument, hq, ne_eq, hp, not_false_eq_true, if_true]
  exact FileSystem.read_remove w.fs d.file_path

/-- C13 at `sampleWorld`: document 1 and its file are gone after the delete,
and the answer is the same when the removal fails. -/
theorem C13_DeleteDocument_witness :
    (DeleteDocument sampleWorld true 1).1.fs.read "uploads/100_a.pdf" = none ∧
    (DeleteDocument sampleWorld false 1).2
      = .json 200 (.message "Document deleted successfully") :=
  ⟨(C13_DeleteDocument sampleWorld true 1).2.2
      ⟨1, 5, 2, "Test", "a.pdf", "uploads/100_a.pdf", 10, 0, 100⟩ (by decide) (by decide) rfl,
   (C13_DeleteDocument sampleWorld false 1).1⟩

/-- The character of a digit below ten is a decimal digit with that value. -/
theorem digitChar_spec (k : Nat) (hk : k < 10) :
    (Nat.digitChar k).isDigit = true ∧ digitValue (Nat.digitChar k) = k := by
  interval_cases k <;> decide

/-- With enough fuel, `Nat.toDigitsCore 10` puts before the accumulator a
non-empty list of decimal digits that writes the number. -/
theorem toDigitsCore_spec (fuel n : Nat) (ds : List Char) (h : n < fuel) :
    ∃ l : List Char, Nat.toDigitsCore 10 fuel n ds = l ++ ds ∧ l ≠ [] ∧
      (∀ c ∈ l, c.isDigit = true) ∧ decimalValue l = n := by
  induction fuel generalizing n ds with
  | zero => omega
  | succ fuel ih =>
    have hd := digitChar_spec (n % 10) (Nat.mod_lt _ (by decide))
    by_cases h0 : n / 10 = 0
    · refine ⟨[Nat.digitChar (n % 10)], by simp [Nat.toDigitsCore, h0], by simp, ?_, ?_⟩
      · intro c hc
        rw [List.mem_singleton.1 hc]
        exact hd.1
      · simp only [decimalValue, List.foldl_cons, List.foldl_nil, hd.2]
        omega
    · have hlt : n / 10 < fuel := by omega
      obtain ⟨l, hl, _, hdig, hval⟩ := ih (n / 10) (Nat.digitChar (n % 10) :: ds) hlt
      refine ⟨l ++ [Nat.digitChar (n % 10)], ?_, by simp, ?_, ?_⟩
      · simp [Nat.toDigitsCore, h0, hl]
      · intro c hc
        rcases List.mem_append.1 hc with hc | hc
        · exact hdig c hc
        · rw [List.mem_singleton.1 hc]
          exact hd.1
      · unfold decimalValue at hval ⊢
        rw [List.foldl_append, hval]
        simp only [List.foldl_cons, List.foldl_nil, hd.2]
        omega

/-- The decimal digits of a natural number: non-empty, digits only, and
writing the number. -/
theorem toDigits_spec (n : Nat) :
    Nat.toDigits 10 n ≠ [] ∧ (∀ c ∈ Nat.toDigits 10 n, c.isDigit = true) ∧
      decimalValue (Nat.toDigits 10 n) = n := by
  obtain ⟨l, hl, hne, hdig, hval⟩ := toDigitsCore_spec (n + 1) n [] (Nat.lt_succ_self n)
  rw [List.append_nil] at hl
  unfold Nat.toDigits
  rw [hl]
  exact ⟨hne, hdig, hval⟩

/-- The characters of `toString` of an integer: the decimal digits of its
absolute value, after a minus sign when it is negative. -/
theorem toString_int_data (t : Int) :
    (toString t).data =
      match t with
      | Int.ofNat m => Nat.toDigits 10 m
      | Int.negSucc m => '-' :: Nat.toDigits 10 (m + 1) := by
  cases t <;> rfl
/-- Every character of `toString` of an integer is a decimal digit or the
minus sign. -/
theorem toString_int_chars (t : Int) :
    ∀ c ∈ (toString t).data, c.isDigit = true ∨ c = '-' := by
  intro c hc
  rw [toString_int_data] at hc
  cases t with
  | ofNat m => exact Or.inl ((toDigits_spec m).2.1 c hc)
  | negSucc m =>
    rcases List.mem_cons.1 hc with rfl | hc
    · exact Or.inr rfl
    · exact Or.inl ((toDigits_spec (m + 1)).2.1 c hc)

/-- The text of an integer is not empty. -/
theorem toString_int_ne_nil (t : Int) : (toString t).data ≠ [] := by
  rw [toString_int_data]
  cases t with
  | ofNat m => exact (toDigits_spec m).1
  | negSucc m => exact List.cons_ne_nil _ _

/-- The text of an integer has no underscore. -/
theorem underscore_not_mem_toString_int (t : Int) : '_' ∉ (toString t).data := by
  intro h
  rcases toString_int_chars t '_' h with h | h
  · exact absurd h (by decide)
  · exact absurd h (by decide)

/-- The text of an integer has no path separator. -/
theorem slash_not_mem_toString_int (t : Int) : '/' ∉ (toString t).data := by
  intro h
  rcases toString_int_chars t '/' h with h | h
  · exact absurd h (by decide)
  · exact absurd h (by decide)

/-- Two integers with the same text are equal. -/
theorem toString_int_injective (t1 t2 : Int) (h : toString t1 = toString t2) : t1 = t2 := by
  have hd : (toString t1).data = (toString t2).data := by rw [h]
  rw [toString_int_data, toString_int_data] at hd
  cases t1 with
  | ofNat m1 =>
    cases t2 with
    | ofNat m2 =>
      have : m1 = m2 := by
        rw [← (toDigits_spec m1).2.2, ← (toDigits_spec m2).2.2]
        exact congrArg decimalValue hd
      rw [this]
    | negSucc m2 =>
      exfalso
      have hmem : '-' ∈ Nat.toDigits 10 m1 := by
        have hd2 : Nat.toDigits 10 m1 = '-' :: Nat.toDigits 10 (m2 + 1) := hd
        rw [hd2]
        exact List.mem_cons_self _ _
      exact absurd ((toDigits_spec m1).2.1 _ hmem) (by decide)
  | negSucc m1 =>
    cases t2 with
    | ofNat m2 =>
      exfalso
      have hmem : '-' ∈ Nat.toDigits 10 m2 := by
        have hd2 : '-' :: Nat.toDigits 10 (m1 + 1) = Nat.toDigits 10 m2 := hd
        rw [← hd2]
        exact List.mem_cons_self _ _
      exact absurd ((toDigits_spec m2).2.1 _ hmem) (by decide)
    | negSucc m2 =>
      have hd2 : '-' :: Nat.toDigits 10 (m1 + 1) = '-' :: Nat.toDigits 10 (m2 + 1) := hd
      have htail := (List.cons.inj hd2).2
      have : m1 + 1 = m2 + 1 := by
        rw [← (toDigits_spec (m1 + 1)).2.2, ← (toDigits_spec (m2 + 1)).2.2]
        exact congrArg decimalValue htail
      have : m1 = m2 := by omega
      rw [this]

/-- Two texts cut at the first occurrence of a separator agree part by
part. -/
theorem append_cons_inj {β : Type} (a : β) (l1 l2 r1 r2 : List β)
    (h1 : a ∉ l1) (h2 : a ∉ l2) (h : l1 ++ a :: r1 = l2 ++ a :: r2) : l1 = l2 ∧ r1 = r2 := by
  induction l1 generalizing l2 with
  | nil =>
    cases l2 with
    | nil => exact ⟨rfl, (List.cons.inj h).2⟩
    | cons b l2 =>
      exfalso
      have : a = b := (List.cons.inj h).1
      exact h2 (by rw [this]; exact List.mem_cons_self _ _)
  | cons c l1 ih =>
    cases l2 with
    | nil =>
      exfalso
      have : c = a := (List.cons.inj h).1
      exact h1 (by rw [this]; exact List.mem_cons_self _ _)
    | cons b l2 =>
      have hc := List.cons.inj h
      obtain ⟨e1, e2⟩ := ih l2 (fun hm => h1 (List.mem_cons_of_mem _ hm))
        (fun hm => h2 (List.mem_cons_of_mem _ hm)) hc.2
      exact ⟨by rw [hc.1, e1], e2⟩

/-- The characters of a stored file name. -/
theorem storedFileName_data (t : Int) (o : String) :
    (storedFileName t o).data = (toString t).data ++ '_' :: (filepathBase o).data := by
  simp [storedFileName, String.data_append]

/-- Two stored file names are equal exactly when the timestamps and the base
names are. -/
theorem storedFileName_eq_iff (t1 t2 : Int) (o1 o2 : String) :
    storedFileName t1 o1 = storedFileName t2 o2 ↔
      t1 = t2 ∧ filepathBase o1 = filepathBase o2 := by
  constructor
  · intro h
    have hd : (storedFileName t1 o1).data = (storedFileName t2 o2).data := by rw [h]
    rw [storedFileName_data, storedFileName_data] at hd
    obtain ⟨e1, e2⟩ := append_cons_inj '_' _ _ _ _ (underscore_not_mem_toString_int t1)
      (underscore_not_mem_toString_int t2) hd
    exact ⟨toString_int_injective t1 t2 (String.ext e1), String.ext e2⟩
  · rintro ⟨rfl, hb⟩
    simp [storedFileName, hb]
/-- A base name is not empty, and it has no separator unless it is the
separator alone. -/
theorem filepathBase_spec (o : String) :
    (filepathBase o).data ≠ [] ∧ (filepathBase o = "/" ∨ '/' ∉ (filepathBase o).data) := by
  unfold filepathBase
  by_cases ho : o = ""
  · rw [if_pos ho]
    exact ⟨by decide, Or.inr (by decide)⟩
  · rw [if_neg ho]
    simp only
    split
    · exact ⟨by decide, Or.inl rfl⟩
    · rename_i hlast
      refine ⟨hlast, Or.inr ?_⟩
      intro hm
      have hm2 := List.mem_reverse.1 hm
      have := List.mem_takeWhile_imp hm2
      simp at this

/-- The base name of a non-empty name without separator is the name. -/
theorem filepathBase_of_no_slash (o : String) (ho : o ≠ "") (hs : '/' ∉ o.data) :
    filepathBase o = o := by
  have hall : ∀ c ∈ o.data.reverse, (c != '/') = true := by
    intro c hc
    have hc2 := List.mem_reverse.1 hc
    simp only [bne_iff_ne, ne_eq]
    intro e
    exact hs (e ▸ hc2)
  have hdrop : o.data.reverse.dropWhile (fun c => c == '/') = o.data.reverse := by
    cases hr : o.data.reverse with
    | nil => rfl
    | cons a l =>
      have ha : (a != '/') = true := hall a (by rw [hr]; exact List.mem_cons_self _ _)
      have ha2 : (a == '/') = false := by simpa [bne] using ha
      simp [List.dropWhile, ha2]
  have htake : o.data.reverse.takeWhile (fun c => c != '/') = o.data.reverse :=
    List.takeWhile_eq_self_iff.2 hall
  have hne : o.data ≠ [] := fun e => ho (String.ext e)
  unfold filepathBase
  rw [if_neg ho]
  simp only [String.toList, hdrop, List.reverse_reverse, htake]
  rw [if_neg hne]

/-- Only a name made of separators has the separator as its base name. -/
theorem all_slash_of_filepathBase (o : String) (h : filepathBase o = "/") :
    ∀ c ∈ o.data, c = '/' := by
  unfold filepathBase at h
  by_cases ho : o = ""
  · rw [if_pos ho] at h
    exact absurd h (by decide)
  · rw [if_neg ho] at h
    simp only [String.toList, List.reverse_reverse] at h
    by_cases hlast : ((o.data.reverse.dropWhile (fun c => c == '/')).takeWhile
        (fun c => c != '/')).reverse = []
    · have hdrop : o.data.reverse.dropWhile (fun c => c == '/') = [] := by
        cases hd : o.data.reverse.dropWhile (fun c => c == '/') with
        | nil => rfl
        | cons a l =>
          exfalso
          have hhead := List.head_dropWhile_not (fun c => c == '/') o.data.reverse
            (by rw [hd]; exact List.cons_ne_nil _ _)
          simp only [hd, List.head_cons] at hhead
          rw [hd] at hlast
          have ha : (a != '/') = true := by simp [bne, hhead]
          simp [List.takeWhile, ha] at hlast
      intro c hc
      have := List.dropWhile_eq_nil_iff.1 hdrop c (List.mem_reverse.2 hc)
      simpa using this
    · rw [if_neg hlast] at h
      exfalso
      have hd : (String.mk ((o.data.reverse.dropWhile (fun c => c == '/')).takeWhile
          (fun c => c != '/')).reverse).data = ("/" : String).data := by rw [h]
      have hmem : '/' ∈ ((o.data.reverse.dropWhile (fun c => c == '/')).takeWhile
          (fun c => c != '/')).reverse := by
        have hd2 : ((o.data.reverse.dropWhile (fun c => c == '/')).takeWhile
          (fun c => c != '/')).reverse = ['/'] := hd
        rw [hd2]
        exact List.mem_singleton.2 rfl
      have := List.mem_takeWhile_imp (List.mem_reverse.1 hmem)
      simp at this

/-- The stored file name is never the original file name. -/
theorem storedFileName_ne_original (t : Int) (o : String) : storedFileName t o ≠ o := by
  intro h
  have hd : o.data = (toString t).data ++ '_' :: (filepathBase o).data := by
    rw [← storedFileName_data, h]
  have hu : '_' ∈ o.data := by
    rw [hd]
    exact List.mem_append_right _ (List.mem_cons_self _ _)
  have hbase : filepathBase o ≠ "/" := by
    intro hb
    exact absurd (all_slash_of_filepathBase o hb '_' hu) (by decide)
  have hns : '/' ∉ (filepathBase o).data := by
    rcases (filepathBase_spec o).2 with hb | hb
    · exact absurd hb hbase
    · exact hb
  have hno : '/' ∉ o.data := by
    rw [hd]
    intro hm
    rcases List.mem_append.1 hm with hm | hm
    · exact slash_not_mem_toString_int t hm
    · rcases List.mem_cons.1 hm with hm | hm
      · exact absurd hm (by decide)
      · exact hns hm
  have hone : o ≠ "" := by
    intro e
    rw [e] at hu
    exact absurd hu (by decide)
  have hb := filepathBase_of_no_slash o hone hno
  rw [hb] at hd
  have hlen := congrArg List.length hd
  simp only [List.length_append, List.length_cons] at hlen
  omega
/-- What `filepath.Clean` makes of a relative path of two plain elements,
with or without a trailing separator: the two elements joined by one
separator. -/
theorem filepathClean_two (p : String) (u v : List Char) (trail : Bool)
    (hp : p.data = u ++ '/' :: v ++ (if trail then ['/'] else []))
    (hu : '/' ∉ u) (hv : '/' ∉ v)
    (hu0 : u ≠ []) (hu1 : u ≠ ['.']) (hu2 : u ≠ ['.', '.'])
    (hv0 : v ≠ []) (hv1 : v ≠ ['.']) (hv2 : v ≠ ['.', '.']) :
    (filepathClean p).data = u ++ '/' :: v := by
  have hne : p ≠ "" := by
    intro e
    rw [e] at hp
    cases u with
    | nil => exact hu0 rfl
    | cons a u => simp at hp
  have hroot : (p.toList.head? == some '/') = false := by
    cases u with
    | nil => exact absurd rfl hu0
    | cons a u =>
      have ha : a ≠ '/' := fun e => hu (e ▸ List.mem_cons_self _ _)
      simp [String.toList, hp, ha]
  have hsplit : p.toList.splitOn '/' = if trail then [u, v, []] else [u, v] := by
    cases trail with
    | true =>
      have hi : p.toList = ['/'].intercalate [u, v, []] := by
        simp [String.toList, hp, List.intercalate, List.intersperse]
      rw [hi]
      exact List.splitOn_intercalate _ '/' (by
        intro l hl
        simp only [List.mem_cons, List.mem_singleton, List.not_mem_nil, or_false] at hl
        rcases hl with rfl | rfl | rfl
        · exact hu
        · exact hv
        · exact List.not_mem_nil _) (by simp)
    | false =>
      have hi : p.toList = ['/'].intercalate [u, v] := by
        simp [String.toList, hp, List.intercalate, List.intersperse]
      rw [hi]
      exact List.splitOn_intercalate _ '/' (by
        intro l hl
        simp only [List.mem_cons, List.mem_singleton, List.not_mem_nil, or_false] at hl
        rcases hl with rfl | rfl
        · exact hu
        · exact hv) (by simp)
  have hfold : (p.toList.splitOn '/').foldl (cleanStep false) [] = [u, v] := by
    rw [hsplit]
    cases trail <;> simp [cleanStep, hu0, hu1, hu2, hv0, hv1, hv2]
  unfold filepathClean
  rw [if_neg hne]
  simp only [hroot, hfold]
  simp [List.intercalate, List.intersperse]

/-- The storage path of an upload: `uploads/`, the timestamp, an underscore
and the base name, where a base name that is the separator alone leaves
nothing after the underscore. -/
theorem filepathJoin_uploads_stored (t : Int) (o : String) :
    (filepathJoin "uploads" (storedFileName t o)).data =
      "uploads/".data ++ ((toString t).data ++
        '_' :: (if filepathBase o = "/" then [] else (filepathBase o).data)) := by
  have hn : storedFileName t o ≠ "" := by
    intro e
    have := storedFileName_data t o
    rw [e] at this
    cases hd : (toString t).data with
    | nil => exact toString_int_ne_nil t hd
    | cons a l => rw [hd] at this; simp at this
  have hjoin : filepathJoin "uploads" (storedFileName t o)
      = filepathClean ("uploads" ++ "/" ++ storedFileName t o) := by
    unfold filepathJoin
    rw [if_neg (by simp [hn]), if_neg (by decide), if_neg hn]
  have hus : '_' ∈ (toString t).data ++ ['_'] := List.mem_append_right _ (List.mem_singleton.2 rfl)
  have hv : '/' ∉ (toString t).data ++ ['_'] := by
    intro hm
    rcases List.mem_append.1 hm with hm | hm
    · exact slash_not_mem_toString_int t hm
    · exact absurd (List.mem_singleton.1 hm) (by decide)
  rw [hjoin]
  by_cases hb : filepathBase o = "/"
  · rw [if_pos hb]
    have hp : ("uploads" ++ "/" ++ storedFileName t o).data
        = "uploads".data ++ '/' :: ((toString t).data ++ ['_']) ++ (if true then ['/'] else []) := by
      simp [String.data_append, storedFileName_data, hb]
    rw [filepathClean_two _ "uploads".data ((toString t).data ++ ['_']) true hp (by decide) hv
      (by decide) (by decide) (by decide)
      (fun e => by rw [e] at hus; exact absurd hus (by decide))
      (fun e => by rw [e] at hus; exact absurd hus (by decide))
      (fun e => by rw [e] at hus; exact absurd hus (by decide))]
    simp
  · rw [if_neg hb]
    have hns : '/' ∉ (filepathBase o).data := by
      rcases (filepathBase_spec o).2 with h | h
      · exact absurd h hb
      · exact h
    have hus2 : '_' ∈ (toString t).data ++ '_' :: (filepathBase o).data :=
      List.mem_append_right _ (List.mem_cons_self _ _)
    have hv2 : '/' ∉ (toString t).data ++ '_' :: (filepathBase o).data := by
      intro hm
      rcases List.mem_append.1 hm with hm | hm
      · exact slash_not_mem_toString_int t hm
      · rcases List.mem_cons.1 hm with hm | hm
        · exact absurd hm (by decide)
        · exact hns hm
    have hp : ("uploads" ++ "/" ++ storedFileName t o).data
        = "uploads".data ++ '/' :: ((toString t).data ++ '_' :: (filepathBase o).data)
          ++ (if false then ['/'] else []) := by
      simp [String.data_append, storedFileName_data]
    rw [filepathClean_two _ "uploads".data _ false hp (by decide) hv2
      (by decide) (by decide) (by decide)
      (fun e => by rw [e] at hus2; exact absurd hus2 (by decide))
      (fun e => by rw [e] at hus2; exact absurd hus2 (by decide))
      (fun e => by rw [e] at hus2; exact absurd hus2 (by decide))]
    simp

/-- Two storage paths are equal exactly when the timestamps and the base
names are. -/
theorem storagePath_eq_iff (t1 t2 : Int) (o1 o2 : String) :
    filepathJoin "uploads" (storedFileName t1 o1) = filepathJoin "uploads" (storedFileName t2 o2)
      ↔ t1 = t2 ∧ filepathBase o1 = filepathBase o2 := by
  constructor
  · intro h
    have hd : (filepathJoin "uploads" (storedFileName t1 o1)).data
        = (filepathJoin "uploads" (storedFileName t2 o2)).data := by rw [h]
    rw [filepathJoin_uploads_stored, filepathJoin_uploads_stored] at hd
    have hd2 := List.append_cancel_left hd
    obtain ⟨e1, e2⟩ := append_cons_inj '_' _ _ _ _ (underscore_not_mem_toString_int t1)
      (underscore_not_mem_toString_int t2) hd2
    refine ⟨toString_int_injective t1 t2 (String.ext e1), ?_⟩
    by_cases h1 : filepathBase o1 = "/"
    · by_cases h2 : filepathBase o2 = "/"
      · rw [h1, h2]
      · rw [if_pos h1, if_neg h2] at e2
        exact absurd e2.symm (filepathBase_spec o2).1
    · by_cases h2 : filepathBase o2 = "/"
      · rw [if_neg h1, if_pos h2] at e2
        exact absurd e2 (filepathBase_spec o1).1
      · rw [if_neg h1, if_neg h2] at e2
        exact String.ext e2
  · rintro ⟨rfl, hb⟩
    have : storedFileName t1 o1 = storedFileName t1 o2 :=
      (storedFileName_eq_iff t1 t1 o1 o2).2 ⟨rfl, hb⟩
    rw [this]
/-- C15: the stored file name of an upload is the decimal text of the Unix
timestamp, an underscore and the base name of the original file name (and a
successful upload reports that name); two stored names are equal exactly when
the timestamps are equal and the base names are equal, and so are the two
storage paths; hence uploads at different seconds get different names and
paths; and the stored name is never the original name. -/
theorem C15_storedFileName (t1 t2 : Int) (o1 o2 : String) :
    storedFileName t1 o1 = toString t1 ++ "_" ++ filepathBase o1 ∧
    (∀ (w : World) (env : UploadEnv) (f : FileHeader) (s c : Int) (title : String)
        (p : Payload), (UploadDocument w env (some f) s c title).2 = .json 200 p →
      p = .uploaded "File uploaded successfully" (storedFileName env.unixNow f.Filename)) ∧
    (storedFileName t1 o1 = storedFileName t2 o2 ↔
      t1 = t2 ∧ filepathBase o1 = filepathBase o2) ∧
    (filepathJoin "uploads" (storedFileName t1 o1)
        = filepathJoin "uploads" (storedFileName t2 o2) ↔
      t1 = t2 ∧ filepathBase o1 = filepathBase o2) ∧
    (t1 ≠ t2 →
      storedFileName t1 o1 ≠ storedFileName t2 o2 ∧
      filepathJoin "uploads" (storedFileName t1 o1)
        ≠ filepathJoin "uploads" (storedFileName t2 o2)) ∧
    storedFileName t1 o1 ≠ o1 := by
  refine ⟨rfl, ?_, storedFileName_eq_iff t1 t2 o1 o2, storagePath_eq_iff t1 t2 o1 o2, ?_,
    storedFileName_ne_original t1 o1⟩
  · intro w env f s c title p hp
    cases hs : (w.fs.mkdirAll env.mkdirOk).saveUploadedFile env.saveOk
        (filepathJoin "uploads" (storedFileName env.unixNow f.Filename)) f.content with
    | none => simp [UploadDocument, hs] at hp
    | some fs2 =>
      simp only [UploadDocument, hs, Response.json.injEq, true_and] at hp
      exact hp.symm
  · intro hne
    exact ⟨fun h => hne ((storedFileName_eq_iff t1 t2 o1 o2).1 h).1,
      fun h => hne ((storagePath_eq_iff t1 t2 o1 o2).1 h).1⟩

/-- C15 at two uploads of `dir/a.pdf` one second apart. -/
theorem C15_storedFileName_witness :
    storedFileName 1700000000 "dir/a.pdf" = "1700000000_a.pdf" ∧
    storedFileName 1700000000 "dir/a.pdf" ≠ storedFileName 1700000001 "dir/a.pdf" ∧
    filepathJoin "uploads" (storedFileName 1700000000 "dir/a.pdf")
      ≠ filepathJoin "uploads" (storedFileName 1700000001 "dir/a.pdf") ∧
    storedFileName 1700000000 "dir/a.pdf" ≠ "dir/a.pdf" :=
  have h := C15_storedFileName 1700000000 1700000001 "dir/a.pdf" "dir/a.pdf"
  ⟨by decide, (h.2.2.2.2.1 (by decide)).1, (h.2.2.2.2.1 (by decide)).2, h.2.2.2.2.2⟩

set_option maxRecDepth 1000000 in
set_option maxHeartbeats 4000000 in
/-- On the database of a new file, `insertDefaultData` builds an intact
hierarchy: the levels get the keys 1 to 4, every year points at one of them
and every subject at a stored year. -/
theorem insertDefaultData_empty_intact :
    (insertDefaultData DB.empty (fun k => (k : Int))).1.levels.rows.map (fun l => (l.ID, l.Name))
      = [(1, "Primaire"), (2, "Moyen"), (3, "Lycée"), (4, "Université")] ∧
    (insertDefaultData DB.empty (fun k => (k : Int))).1.years.rows.map
        (fun y => (y.id, y.level_id))
      = [(1, 1), (2, 1), (3, 1), (4, 1), (5, 1), (6, 2), (7, 2), (8, 2), (9, 2), (10, 3),
         (11, 3), (12, 3)] ∧
    (∀ s ∈ (insertDefaultData DB.empty (fun k => (k : Int))).1.subjects.rows,
      ∃ y ∈ (insertDefaultData DB.empty (fun k => (k : Int))).1.years.rows,
        y.id = s.year_id) := by
  decide

set_option maxRecDepth 1000000 in
set_option maxHeartbeats 4000000 in
/-- C14, the code at a state it breaks on: `wipedDB` has no level, and after
`insertDefaultData` the four levels have the keys 5 to 8 while the twelve
years it inserted carry the `level_id` 1, 2 and 3; no stored year points at a
stored level, `GetYears` for Primaire (key 5) is empty, and no subject it
inserted points at a year it inserted. -/
theorem C14_reseed_after_delete :
    wipedDB.levels.rows = [] ∧
    reseededDB.levels.rows.map (fun l => (l.ID, l.Name))
      = [(5, "Primaire"), (6, "Moyen"), (7, "Lycée"), (8, "Université")] ∧
    (reseededDB.years.rows.drop wipedDB.years.rows.length).map (fun y => (y.id, y.level_id))
      = [(13, 1), (14, 1), (15, 1), (16, 1), (17, 1), (18, 2), (19, 2), (20, 2), (21, 2),
         (22, 3), (23, 3), (24, 3)] ∧
    (∀ y ∈ reseededDB.years.rows, ∀ l ∈ reseededDB.levels.rows, l.ID ≠ y.level_id) ∧
    GetYears reseededDB 5 = .json 200 (.years []) ∧
    (∀ s ∈ reseededDB.subjects.rows.drop wipedDB.subjects.rows.length,
      ∀ y ∈ reseededDB.years.rows.drop wipedDB.years.rows.length, y.id ≠ s.year_id) := by
  decide

/-- The two statements of one request, run with nothing in between, are the
handler `DownloadDocument`. -/
theorem stepCaller_twice (docID : Int) (db : DB) :
    stepCaller docID (stepCaller docID db .start).1 (stepCaller docID db .start).2
      = ((DownloadDocument db docID).1, .done (DownloadDocument db docID).2) := by
  unfold DownloadDocument
  cases hq : db.documents.queryRow docID with
  | none => simp [stepCaller, hq]
  | some doc => simp [stepCaller, hq]

/-- Raising by 0 changes nothing. -/
theorem bumpDownloads_zero (db : DB) (docID : Int) : bumpDownloads db docID 0 = db := by
  unfold bumpDownloads Table.update
  have hm : db.documents.rows.map (fun r =>
      if rowid r = docID then { r with downloads := r.downloads + ((0 : Nat) : Int) } else r)
      = db.documents.rows := by
    conv_rhs => rw [← List.map_id db.documents.rows]
    apply List.map_congr_left
    intro r _
    split
    · simp
    · rfl
  rw [hm]

/-- The `UPDATE` on a database already raised by `k` gives the database
raised by `k + 1`. -/
theorem update_bumpDownloads (db : DB) (docID : Int) (k : Nat) (doc : DocumentRow) :
    (stepCaller docID (bumpDownloads db docID k) (.found doc)).1
      = bumpDownloads db docID (k + 1) := by
  unfold stepCaller bumpDownloads Table.update
  simp only [List.map_map]
  have hm : db.documents.rows.map
        ((fun r => if rowid r = docID then { r with downloads := r.downloads + 1 } else r) ∘
          (fun r => if rowid r = docID
            then { r with downloads := r.downloads + ((k : Nat) : Int) } else r))
      = db.documents.rows.map (fun r =>
          if rowid r = docID
            then { r with downloads := r.downloads + ((k + 1 : Nat) : Int) } else r) := by
    apply List.map_congr_left
    intro r _
    simp only [Function.comp]
    by_cases h : rowid r = docID
    · have h2 : rowid ({ r with downloads := r.downloads + (k : Int) } : DocumentRow) = docID := h
      rw [if_pos h, if_pos h2, if_pos h]
      simp only [DocumentRow.mk.injEq, true_and, and_true]
      push_cast
      omega
    · rw [if_neg h, if_neg h, if_neg h]
  rw [hm]

/-- A stored document is still found after its counter was raised. -/
theorem queryRow_bumpDownloads (db : DB) (docID : Int) (k : Nat)
    (hex : ∃ r ∈ db.documents.rows, r.id = docID) :
    ∃ doc, (bumpDownloads db docID k).documents.queryRow docID = some doc := by
  obtain ⟨r, hr, hid⟩ := hex
  cases hq : (bumpDownloads db docID k).documents.queryRow docID with
  | some doc => exact ⟨doc, rfl⟩
  | none =>
    exfalso
    unfold Table.queryRow bumpDownloads Table.update at hq
    have hall := List.find?_eq_none.1 hq
    have hmem : (if rowid r = docID then { r with downloads := r.downloads + (k : Int) } else r)
        ∈ db.documents.rows.map (fun r =>
          if rowid r = docID then { r with downloads := r.downloads + (k : Int) } else r) :=
      List.mem_map_of_mem _ hr
    have := hall _ hmem
    have hrid : rowid r = docID := hid
    rw [if_pos hrid] at this
    simp at this
    exact this hid
/-- One statement of a request on a database raised by `k`: the database is
then raised by `k`, or by `k + 1` when the statement was the `UPDATE`, and the
request has moved on by one statement. -/
theorem stepCaller_bumpDownloads (db : DB) (docID : Int) (k : Nat) (c : Caller)
    (hex : ∃ r ∈ db.documents.rows, r.id = docID) :
    ∃ δ : Nat, (stepCaller docID (bumpDownloads db docID k) c).1
        = bumpDownloads db docID (k + δ) ∧
      (if (stepCaller docID (bumpDownloads db docID k) c).2.isDone then 1 else 0)
        = (if c.isDone then 1 else 0) + δ ∧
      (stepCaller docID (bumpDownloads db docID k) c).2.phase = min 2 (c.phase + 1) := by
  cases c with
  | start =>
    obtain ⟨doc, hq⟩ := queryRow_bumpDownloads db docID k hex
    exact ⟨0, by simp [stepCaller, hq], by simp [stepCaller, hq, Caller.isDone],
      by simp [stepCaller, hq, Caller.phase]⟩
  | found doc =>
    exact ⟨1, update_bumpDownloads db docID k doc, by simp [stepCaller, Caller.isDone],
      by simp [stepCaller, Caller.phase]⟩
  | done resp =>
    exact ⟨0, by simp [stepCaller], by simp [stepCaller, Caller.isDone],
      by simp [stepCaller, Caller.phase]⟩

/-- One step of an interleaving on a database raised by `k`: the database is
raised by as much more as requests have finished in the step, the number of
requests stays, and only the scheduled request has moved on. -/
theorem stepAt_bumpDownloads (db : DB) (docID : Int)
    (hex : ∃ r ∈ db.documents.rows, r.id = docID) (callers : List Caller) (i k : Nat) :
    ∃ δ : Nat, (stepAt docID (bumpDownloads db docID k) callers i).1
        = bumpDownloads db docID (k + δ) ∧
      (stepAt docID (bumpDownloads db docID k) callers i).2.countP Caller.isDone
        = callers.countP Caller.isDone + δ ∧
      (stepAt docID (bumpDownloads db docID k) callers i).2.length = callers.length ∧
      ∀ j, ((stepAt docID (bumpDownloads db docID k) callers i).2[j]?).map Caller.phase
        = (callers[j]?).map (fun c => if j = i then min 2 (c.phase + 1) else c.phase) := by
  induction callers generalizing i with
  | nil => exact ⟨0, by simp [stepAt], by simp [stepAt], by simp [stepAt], by simp [stepAt]⟩
  | cons c cs ih =>
    cases i with
    | zero =>
      obtain ⟨δ, h1, h2, h3⟩ := stepCaller_bumpDownloads db docID k c hex
      refine ⟨δ, h1, ?_, rfl, ?_⟩
      · simp only [stepAt, List.countP_cons, h2]
        omega
      · intro j
        cases j with
        | zero => simp [stepAt, h3]
        | succ j => simp [stepAt]
    | succ i =>
      obtain ⟨δ, h1, h2, h3, h4⟩ := ih i
      refine ⟨δ, h1, ?_, ?_, ?_⟩
      · simp only [stepAt, List.countP_cons, h2]
        omega
      · simp [stepAt, h3]
      · intro j
        cases j with
        | zero => simp [stepAt]
        | succ j => simpa [stepAt] using h4 j

/-- Along any schedule the database is the first one raised by the number of
finished requests, and each request has moved on by as many statements as it
was scheduled, two at most. -/
theorem runSchedule_bumpDownloads (db : DB) (docID : Int)
    (hex : ∃ r ∈ db.documents.rows, r.id = docID) (sched : List Nat) (callers : List Caller) :
    (runSchedule docID (bumpDownloads db docID (callers.countP Caller.isDone), callers)
        sched).1
      = bumpDownloads db docID
        ((runSchedule docID (bumpDownloads db docID (callers.countP Caller.isDone), callers)
          sched).2.countP Caller.isDone) ∧
    (runSchedule docID (bumpDownloads db docID (callers.countP Caller.isDone), callers)
        sched).2.length = callers.length ∧
    ∀ j, ((runSchedule docID (bumpDownloads db docID (callers.countP Caller.isDone), callers)
          sched).2[j]?).map Caller.phase
      = (callers[j]?).map (fun c => min 2 (c.phase + sched.count j)) := by
  induction sched generalizing callers with
  | nil =>
    refine ⟨rfl, rfl, fun j => ?_⟩
    cases hj : callers[j]? with
    | none => simp [runSchedule, hj]
    | some c =>
      have : c.phase ≤ 2 := by cases c <;> simp [Caller.phase]
      simp [runSchedule, hj]
      omega
  | cons i rest ih =>
    obtain ⟨δ, h1, h2, h3, h4⟩ :=
      stepAt_bumpDownloads db docID hex callers i (callers.countP Caller.isDone)
    have hstep : runSchedule docID
          (bumpDownloads db docID (callers.countP Caller.isDone), callers) (i :: rest)
        = runSchedule docID
          (bumpDownloads db docID
            ((stepAt docID (bumpDownloads db docID (callers.countP Caller.isDone))
              callers i).2.countP Caller.isDone),
           (stepAt docID (bumpDownloads db docID (callers.countP Caller.isDone))
              callers i).2) rest := by
      have hst : stepAt docID (bumpDownloads db docID (callers.countP Caller.isDone)) callers i
          = (bumpDownloads db docID
              ((stepAt docID (bumpDownloads db docID (callers.countP Caller.isDone))
                callers i).2.countP Caller.isDone),
             (stepAt docID (bumpDownloads db docID (callers.countP Caller.isDone))
                callers i).2) :=
        Prod.ext (by rw [h2]; exact h1) rfl
      simp only [runSchedule, List.foldl_cons]
      conv_lhs => rw [hst]
    rw [hstep]
    obtain ⟨g1, g2, g3⟩ := ih
      (stepAt docID (bumpDownloads db docID (callers.countP Caller.isDone)) callers i).2
    refine ⟨g1, by rw [g2, h3], fun j => ?_⟩
    rw [g3 j]
    have hmap : ∀ x : Option Caller,
        x.map (fun c => min 2 (c.phase + rest.count j))
          = (x.map Caller.phase).map (fun p => min 2 (p + rest.count j)) := by
      intro x
      cases x <;> rfl
    rw [hmap, h4 j]
    cases hj : callers[j]? with
    | none => simp
    | some c =>
      have hc : c.phase ≤ 2 := by cases c <;> simp [Caller.phase]
      simp only [Option.map_some', Option.some.injEq, List.count_cons]
      by_cases hji : j = i
      · subst hji
        simp
        omega
      · have : ¬ i = j := fun e => hji e.symm
        simp [hji, this]
/-- C3: `N` requests download the same stored document at once, each sending
its `SELECT` and then its `UPDATE`, the statements of the requests interleaved
in any order.  Along every schedule the counter stands exactly as many above
its first value as requests have finished; and once every request has had its
two statements, all `N` have finished and the database is the first one with
`downloads` of that document raised by exactly `N`, nothing else changed. -/
theorem C3_no_lost_update (db : DB) (docID : Int) (N : Nat) (sched : List Nat)
    (hex : ∃ r ∈ db.documents.rows, r.id = docID) :
    (runSchedule docID (db, List.replicate N Caller.start) sched).1
      = bumpDownloads db docID
        ((runSchedule docID (db, List.replicate N Caller.start) sched).2.countP
          Caller.isDone) ∧
    ((∀ j < N, 2 ≤ sched.count j) →
      (runSchedule docID (db, List.replicate N Caller.start) sched).2.length = N ∧
      (∀ c ∈ (runSchedule docID (db, List.replicate N Caller.start) sched).2,
        c.isDone = true) ∧
      (runSchedule docID (db, List.replicate N Caller.start) sched).1
        = { db with documents :=
            { rows := db.documents.rows.map (fun r =>
                if r.id = docID then { r with downloads := r.downloads + (N : Int) } else r)
              seq := db.documents.seq } } ∧
      (∀ d ∈ db.documents.rows, d.id = docID →
        ({ d with downloads := d.downloads + (N : Int) } : DocumentRow)
          ∈ (runSchedule docID (db, List.replicate N Caller.start) sched).1.documents.rows)) := by
  have hzero : (List.replicate N Caller.start).countP Caller.isDone = 0 := by
    rw [List.countP_eq_zero]
    intro c hc
    rw [List.eq_of_mem_replicate hc]
    simp [Caller.isDone]
  have hrun := runSchedule_bumpDownloads db docID hex sched (List.replicate N Caller.start)
  rw [hzero, bumpDownloads_zero] at hrun
  obtain ⟨g1, g2, g3⟩ := hrun
  refine ⟨g1, fun hfair => ?_⟩
  have hlen : (runSchedule docID (db, List.replicate N Caller.start) sched).2.length = N := by
    rw [g2, List.length_replicate]
  have hdone : ∀ c ∈ (runSchedule docID (db, List.replicate N Caller.start) sched).2,
      c.isDone = true := by
    intro c hc
    obtain ⟨j, hj⟩ := List.mem_iff_getElem?.1 hc
    have hjN : j < N := by
      have := (List.getElem?_eq_some.1 hj).1
      omega
    have hp := g3 j
    rw [hj, List.getElem?_replicate_of_lt hjN] at hp
    have h2 := hfair j hjN
    have hp2 : c.phase = min 2 (0 + sched.count j) := by
      simpa [Caller.phase] using hp
    have hc2 : c.phase = 2 := by
      rw [hp2]
      exact Nat.min_eq_left (by omega)
    cases c with
    | start => simp [Caller.phase] at hc2
    | found doc => simp [Caller.phase] at hc2
    | done resp => rfl
  have hcount : (runSchedule docID (db, List.replicate N Caller.start) sched).2.countP
      Caller.isDone = N := by
    rw [List.countP_eq_length.2 hdone, hlen]
  have hfinal : (runSchedule docID (db, List.replicate N Caller.start) sched).1
      = bumpDownloads db docID N := by
    rw [g1, hcount]
  refine ⟨hlen, hdone, ?_, ?_⟩
  · rw [hfinal]
    rfl
  · intro d hd hid
    rw [hfinal]
    have hrid : rowid d = docID := hid
    refine List.mem_map.2 ⟨d, hd, ?_⟩
    show (if rowid d = docID then _ else d) = _
    rw [if_pos hrid]

/-- C3 at `sampleDB`: three requests for document 2, all three `SELECT`s
before the first `UPDATE`; the counter goes from 7 to 10. -/
theorem C3_no_lost_update_witness :
    (∀ c ∈ (runSchedule 2 (sampleDB, List.replicate 3 Caller.start) [0, 1, 2, 2, 1, 0]).2,
      c.isDone = true) ∧
    (runSchedule 2 (sampleDB, List.replicate 3 Caller.start)
        [0, 1, 2, 2, 1, 0]).1.documents.rows.map (fun r => (r.id, r.downloads))
      = [(1, 0), (2, 10)] := by
  have h := (C3_no_lost_update sampleDB 2 3 [0, 1, 2, 2, 1, 0]
    ⟨⟨2, 5, 1, "Cours 1", "b.pdf", "uploads/200_b.pdf", 3, 7, 200⟩, by decide, rfl⟩).2
    (by decide)
  refine ⟨h.2.1, ?_⟩
  rw [h.2.2.1]
  decide

end StudyDz
